import Mathlib

/-!
# Verification of the `RoutesService` route-collection manager

Shallow embedding of `RoutesService` (`services/layers/routelayers/routes.service.ts`)
together with the parts of its collaborators (`RouteLayer`, `RouteLayerFactory`,
`MapService`, `IconsService`) that its operations touch.  Object references are
modelled by unique numeric ids; the selected-route reference is the id of a layer
in the collection.  Fallible code (TypeScript dereferences of `undefined`/`null`
that throw) is modelled with `Option`: a `none` result is a thrown `TypeError`.
Geographic distance (`L.LatLng.distanceTo`) is an opaque parameter `dist`.
-/

namespace RoutesSpec

/-- A geographic point (`L.LatLng`).  Coordinates are opaque data here; the only
geometric operation the manager performs is the distance comparison against the
merge threshold, which goes through the `dist` parameter. -/
structure LatLng where
  lat : Int
  lng : Int
deriving DecidableEq, Repr

/-- A route marker (`IMarkerWithData`): a point, a title and an icon type tag. -/
structure Marker where
  latlng : LatLng
  title : String
  type : String
deriving DecidableEq, Repr

/-- A route segment (`RouteSegmentData`): an ordered point list, an anchor point
and an opaque routing-type tag. -/
structure SegmentData where
  latlngs : List LatLng
  routePoint : LatLng
  routingType : String
deriving DecidableEq, Repr

/-- `RouteProperties`: the name and visibility flag of a route. -/
structure RouteProperties where
  name : String
  isVisible : Bool
deriving DecidableEq, Repr

/-- A route (`IRoute`): properties plus the segment and marker lists. -/
structure Route where
  properties : RouteProperties
  segments : List SegmentData
  markers : List Marker
deriving DecidableEq, Repr

/-- An import/export payload entry (`Common.RouteData`).  Its `name` is optional
in the payload shape; `markers` is a plain list because the missing
`MapService.routesJsonToRoutesObject` (modelled from the spec: it converts the
raw JSON payload into live objects before `addLayersToMap` runs) normalises an
absent marker list to an empty one. -/
structure RouteData where
  name : Option String
  segments : List SegmentData
  markers : List Marker
deriving DecidableEq, Repr

/-- Modelled from the spec: the `RouteLayer` lifecycle state,
`Hidden | ReadOnly | Edit` (§3/§4.1 of the spec; `route.layer.ts` is not in
`src/`). -/
inductive LayerState where
  | Hidden
  | ReadOnly
  | Edit
deriving DecidableEq, Repr

/-- Modelled from the spec: the transient edit sub-mode that `getEditMode` /
`setEditMode` preserve across a Hidden→Edit round trip (§4.1). -/
inductive EditMode where
  | None
  | Route
  | Poi
deriving DecidableEq, Repr

/-- Modelled from the spec: a `RouteLayer` owns exactly one `Route` plus its
lifecycle state and edit sub-mode (§3).  The `id` field models object identity
(TypeScript `===`); ids are handed out by the manager's fresh counter. -/
structure RouteLayer where
  id : Nat
  route : Route
  state : LayerState
  editMode : EditMode
deriving DecidableEq, Repr

/-- Modelled from the spec: `RouteLayer.setHiddenState` — unconditional
transition (§4.1). -/
def setHiddenStateL (l : RouteLayer) : RouteLayer :=
  { l with state := LayerState.Hidden }

/-- Modelled from the spec: `RouteLayer.setReadOnlyState` — unconditional
transition (§4.1). -/
def setReadOnlyStateL (l : RouteLayer) : RouteLayer :=
  { l with state := LayerState.ReadOnly }

/-- Modelled from the spec: `RouteLayer.setEditRouteState` — unconditional
transition into the Edit state with the Route edit sub-mode (§4.1). -/
def setEditRouteStateL (l : RouteLayer) : RouteLayer :=
  { l with state := LayerState.Edit, editMode := EditMode.Route }

/-- Modelled from the spec: `RouteLayer.getEditMode` — the edit sub-mode is
meaningful only while in Edit state (§3, §4.1). -/
def getEditMode (l : RouteLayer) : EditMode :=
  if l.state = LayerState.Edit then l.editMode else EditMode.None

/-- Modelled from the spec: `RouteLayer.setEditMode` — restores the prior edit
sub-mode after a temporary hide, realising the Hidden→Edit round trip of §4.1;
a `None` sub-mode restores the read-only state instead. -/
def setEditMode (l : RouteLayer) (m : EditMode) : RouteLayer :=
  match m with
  | EditMode.None => setReadOnlyStateL l
  | m => { l with state := LayerState.Edit, editMode := m }

/-- Modelled from the spec: the renderer's `map.addLayer` keeps the layer's
visibility flag in sync (§6): adding a layer shows it. -/
def mapAddLayerL (l : RouteLayer) : RouteLayer :=
  { l with route := { l.route with properties := { l.route.properties with isVisible := true } } }

/-- Modelled from the spec: the renderer's `map.removeLayer` hides the layer
(§6). -/
def mapRemoveLayerL (l : RouteLayer) : RouteLayer :=
  { l with route := { l.route with properties := { l.route.properties with isVisible := false } } }

/-- `getLastLatLng` on a route: the last point of the last segment; `none`
models the `undefined` dereference that callers must guard against (§4.1). -/
def getLastLatLngR (r : Route) : Option LatLng :=
  r.segments.getLast?.bind (fun sg => sg.latlngs.getLast?)

/-- `getLastLatLng` on a layer. -/
def getLastLatLngL (l : RouteLayer) : Option LatLng :=
  getLastLatLngR l.route

/-- The first point of a route (`segments[0].latlngs[0]`), the logical start
point. -/
def firstLatLngR (r : Route) : Option LatLng :=
  r.segments.head?.bind (fun sg => sg.latlngs.head?)

/-- Modelled from the spec: `RouteLayer.reverse` — reverses the segment order
and, within each segment, the point order (§4.1; used only as a merge
pre-step).  The routing-type tags stay with their segments; no claim below
observes the tag re-association described in §4.1. -/
def reverseLayer (l : RouteLayer) : RouteLayer :=
  { l with route := { l.route with
      segments := (l.route.segments.map
        (fun sg => { sg with latlngs := sg.latlngs.reverse })).reverse } }

/-! ## Decimal rendering of the probe index

The source builds candidate names with a template literal
(`` `${routeName} ${index}` ``); `natToString` is the embedding's decimal
printer for that interpolation, written with structural fuel so that it
evaluates by kernel reduction. -/

/-- The decimal digit character for `d < 10`. -/
def digitToChar (d : Nat) : Char :=
  Char.ofNat (48 + d)

/-- Little-endian decimal digits of `n`, with fuel. -/
def natDigitsRev : Nat → Nat → List Nat
  | _, 0 => []
  | 0, _ + 1 => []
  | fuel + 1, n + 1 => ((n + 1) % 10) :: natDigitsRev fuel ((n + 1) / 10)

/-- Decimal rendering of a natural number. -/
def natToString (n : Nat) : String :=
  if n = 0 then "0" else String.mk (((natDigitsRev n n).map digitToChar).reverse)

/-- Value of a little-endian digit list. -/
def parseRev : List Nat → Nat
  | [] => 0
  | d :: ds => d + 10 * parseRev ds

theorem parseRev_natDigitsRev : ∀ fuel n, n ≤ fuel → parseRev (natDigitsRev fuel n) = n := by
  intro fuel
  induction fuel with
  | zero =>
    intro n hn
    interval_cases n
    simp [natDigitsRev, parseRev]
  | succ fuel ih =>
    intro n hn
    match n with
    | 0 => simp [natDigitsRev, parseRev]
    | n + 1 =>
      have hdiv : (n + 1) / 10 ≤ fuel := by
        have : (n + 1) / 10 < n + 1 := Nat.div_lt_self (Nat.succ_pos n) (by norm_num)
        omega
      simp only [natDigitsRev, parseRev, ih _ hdiv]
      omega

theorem natDigitsRev_lt : ∀ fuel n d, d ∈ natDigitsRev fuel n → d < 10 := by
  intro fuel
  induction fuel with
  | zero =>
    intro n d hd
    match n with
    | 0 => simp [natDigitsRev] at hd
    | n + 1 => simp [natDigitsRev] at hd
  | succ fuel ih =>
    intro n d hd
    match n with
    | 0 => simp [natDigitsRev] at hd
    | n + 1 =>
      simp only [natDigitsRev, List.mem_cons] at hd
      rcases hd with h | h
      · subst h; exact Nat.mod_lt _ (by norm_num)
      · exact ih _ _ h

/-- Left inverse of `natToString`, used to establish injectivity. -/
def parseDec (s : String) : Nat :=
  parseRev ((s.data.reverse).map (fun c => c.toNat - 48))

theorem toNat_digitToChar (d : Nat) (hd : d < 10) : (digitToChar d).toNat = 48 + d := by
  interval_cases d <;> decide

theorem parseDec_natToString (n : Nat) : parseDec (natToString n) = n := by
  by_cases h0 : n = 0
  · subst h0; decide
  · have hmk : (natToString n).data = ((natDigitsRev n n).map digitToChar).reverse := by
      simp [natToString, h0]
    unfold parseDec
    rw [hmk, List.reverse_reverse, List.map_map]
    have hmap : ((natDigitsRev n n).map ((fun c => c.toNat - 48) ∘ digitToChar)) = natDigitsRev n n := by
      refine (List.map_congr_left ?_).trans (List.map_id _)
      intro d hd
      have := natDigitsRev_lt n n d hd
      simp [Function.comp, toNat_digitToChar d this]
    rw [hmap]
    exact parseRev_natDigitsRev n n (Nat.le_refl n)

theorem natToString_injective : Function.Injective natToString := by
  intro m n h
  have := congrArg parseDec h
  rwa [parseDec_natToString, parseDec_natToString] at this

/-! ## The manager state -/

/-- The `RoutesService` state: the ordered collection of layers, the selected
layer's id (`null` ⇒ `none`), a fresh-id counter standing for object identity,
the two localisation string resources the service reads
(`resourcesService.route` and `resourcesService.split`) and the icon-type list
(`IconsService.getAvailableIconTypes()`, modelled from the spec as opaque
static data because `icons.service.ts` is not in `src/`). -/
structure RoutesService where
  routes : List RouteLayer
  selectedId : Option Nat
  nextId : Nat
  resourcesRoute : String
  resourcesSplit : String
  iconTypes : List String
deriving DecidableEq, Repr

/-- The constructor state: empty collection, no selection. -/
def initService (resRoute resSplit : String) (icons : List String) : RoutesService :=
  { routes := [], selectedId := none, nextId := 0,
    resourcesRoute := resRoute, resourcesSplit := resSplit, iconTypes := icons }

/-- `MERGE_THRESHOLD = 50` meters. -/
def mergeThreshold : Int := 50

/-- Look an object reference up by id. -/
def findLayer (s : RoutesService) (i : Nat) : Option RouteLayer :=
  s.routes.find? (fun l => l.id == i)

/-- Mutation through an object reference: apply `f` to the layer with id `i`
wherever it sits in the collection. -/
def updateLayer (s : RoutesService) (i : Nat) (f : RouteLayer → RouteLayer) : RoutesService :=
  { s with routes := s.routes.map (fun l => if l.id == i then f l else l) }

/-- `getRouteByName`: `_.find` over the collection by route name. -/
def getRouteByName (s : RoutesService) (routeName : String) : Option RouteLayer :=
  s.routes.find? (fun l => l.route.properties.name == routeName)

/-- `isNameAvailable`: true iff no route bears the name and the name is neither
`null` (`none`) nor empty. -/
def isNameAvailable (s : RoutesService) (name : Option String) : Bool :=
  match name with
  | none => false
  | some n => (getRouteByName s n).isNone && n != ""

/-- `selectRoute` (private): demote the current selection to read-only, then
point the selection at the argument. -/
def selectRoute (s : RoutesService) (o : Option Nat) : RoutesService :=
  let s1 := match s.selectedId with
    | some i => updateLayer s i setReadOnlyStateL
    | none => s
  { s1 with selectedId := o }

/-- `addRoute`: wrap the route in a layer via the factory (modelled from the
spec: `RouteLayerFactory.createRouteLayer` wraps the given route, §6), append
it, attach it to the map, set it to Edit state and select it. -/
def addRoute (s : RoutesService) (route : Route) : RoutesService :=
  let layer : RouteLayer :=
    { id := s.nextId, route := route, state := LayerState.ReadOnly, editMode := EditMode.None }
  let s1 := { s with routes := s.routes ++ [layer], nextId := s.nextId + 1 }
  let s2 := updateLayer s1 layer.id mapAddLayerL
  let s3 := updateLayer s2 layer.id setEditRouteStateL
  selectRoute s3 (some layer.id)

/-- Remove the first layer with the given id (`splice(indexOf(layer), 1)`;
the layer is known to be present at the call sites). -/
def removeFirstById : List RouteLayer → Nat → List RouteLayer
  | [], _ => []
  | l :: rest, i => if l.id == i then rest else l :: removeFirstById rest i

/-- `removeRoute`: silent no-op when the name is absent; deselect first when
the found layer is the selection; detach from the renderer; splice out of the
collection. -/
def removeRoute (s : RoutesService) (routeName : String) : RoutesService :=
  match getRouteByName s routeName with
  | none => s
  | some layer =>
    let s1 := if s.selectedId == some layer.id then selectRoute s none else s
    { s1 with routes := removeFirstById s1.routes layer.id }

/-- `changeRouteState`: the click-to-toggle affordance.  The caller always
passes a layer of the collection; an unknown id is a no-op for totality. -/
def changeRouteState (s : RoutesService) (i : Nat) : RoutesService :=
  match findLayer s i with
  | none => s
  | some layer =>
    if s.selectedId == some i && layer.route.properties.isVisible then
      let s1 := selectRoute s none
      updateLayer s1 i mapRemoveLayerL
    else
      let s1 := if layer.route.properties.isVisible = false then updateLayer s i mapAddLayerL else s
      selectRoute s1 (some i)

/-! ## `createRouteName` -/

/-- The JS line terminators, which `.` in a regex without the `s` flag does
not match: LF, CR, U+2028 LINE SEPARATOR and U+2029 PARAGRAPH SEPARATOR. -/
def isLineTerm (c : Char) : Bool :=
  c = '\n' || c = '\r' || c = '\u2028' || c = '\u2029'

/-- The single-line core of `routeName.replace(/(.*) \d+/, "$1")`: on a run of
characters holding no line terminator, delete the last occurrence of a space
followed by a maximal digit run (the greedy `(.*)` makes the one replacement
hit the last such occurrence of its line), keeping what follows; `none` when
the line holds no space-then-digit occurrence, i.e. no match starts in it. -/
def stripLast : List Char → Option (List Char)
  | [] => none
  | c :: rest =>
    match stripLast rest with
    | some rest' => some (c :: rest')
    | none =>
      if c = ' ' && (match rest with | d :: _ => d.isDigit | [] => false) then
        some (rest.dropWhile Char.isDigit)
      else none

/-- The whole replacement `routeName.replace(/(.*) \d+/, "$1")`: since `.`,
` ` and `\d` all fail on line terminators a match never spans one, so the
first (non-global) replacement lands in the first line containing a
space-then-digit occurrence and rewrites that line by `stripLast`, leaving
every other line untouched.  The structural fuel only needs to cover the
number of lines; each step consumes the line and its terminator. -/
def stripLines : Nat → List Char → Option (List Char)
  | 0, _ => none
  | fuel + 1, l =>
    let line := l.takeWhile (fun c => !(isLineTerm c))
    let rest := l.dropWhile (fun c => !(isLineTerm c))
    match stripLast line with
    | some line2 => some (line2 ++ rest)
    | none =>
      match rest with
      | [] => none
      | t :: rest2 => (stripLines fuel rest2).map (fun r => line ++ t :: r)

/-- `routeName.replace(/(.*) \d+/, "$1")` on a string: the identity when no
line matches. -/
def stripNumberSuffix (s : String) : String :=
  match stripLines (s.data.length + 1) s.data with
  | some l => String.mk l
  | none => s

/-- One candidate name, `` `${routeName} ${index}` ``. -/
def candName (base : String) (index : Nat) : String :=
  base ++ " " ++ natToString index

/-- Whether some layer already bears the name (`_.some(this.routes, …)`). -/
def nameTaken (routes : List RouteLayer) (name : String) : Bool :=
  routes.any (fun l => l.route.properties.name == name)

/-- The probing `while` loop of `createRouteName`, with structural fuel; the
call site passes enough fuel for the loop to reach a free candidate. -/
def probeName (routes : List RouteLayer) (base : String) : Nat → Nat → String
  | 0, index => candName base index
  | fuel + 1, index =>
    if nameTaken routes (candName base index) then probeName routes base fuel (index + 1)
    else candName base index

/-- `createRouteName`: default the argument to `resourcesService.route` when it
is `undefined`, strip a trailing " <number>" suffix, then probe " 1", " 2", …
until an unused candidate appears. -/
def createRouteName (s : RoutesService) (routeName : Option String) : String :=
  let base := stripNumberSuffix (routeName.getD s.resourcesRoute)
  probeName s.routes base (s.routes.length + 1) 1

/-! ## `setData` import -/

/-- The marker icon-type normalisation inside `setData`: an unknown type is
replaced by the first available icon type. -/
def normalizeMarker (icons : List String) (m : Marker) : Marker :=
  if icons.contains m.type then m else { m with type := icons.headD "" }

/-- Normalise every marker of one imported route. -/
def normalizeRouteData (icons : List String) (rd : RouteData) : RouteData :=
  { rd with markers := rd.markers.map (normalizeMarker icons) }

/-- Modelled from the spec: `RouteLayerFactory.createRouteLayerFromData` wraps
an import payload entry in a fresh layer (§6); the renderer attach that
follows makes it visible. -/
def createRouteLayerFromData (id : Nat) (rd : RouteData) : RouteLayer :=
  { id := id,
    route := { properties := { name := rd.name.getD "", isVisible := false },
               segments := rd.segments, markers := rd.markers },
    state := LayerState.ReadOnly, editMode := EditMode.None }

/-- One iteration of the import loop of `addLayersToMap`: rename on collision,
wrap, append, attach to the map, select. -/
def importRouteStep (s : RoutesService) (rd : RouteData) : RoutesService :=
  let rd := if isNameAvailable s rd.name then rd
            else { rd with name := some (createRouteName s rd.name) }
  let layer := createRouteLayerFromData s.nextId rd
  let s1 := { s with routes := s.routes ++ [layer], nextId := s.nextId + 1 }
  let s2 := updateLayer s1 layer.id mapAddLayerL
  selectRoute s2 (some layer.id)

/-- The marker-only special case of `addLayersToMap`: merge the markers into
the selection (defaulting to the first route), cycling it
hidden → markers appended → edit mode restored. -/
def markerOnlyImport (s : RoutesService) (rd : RouteData) : RoutesService :=
  let s := match s.selectedId with
    | none => { s with selectedId := s.routes.head?.map (fun l => l.id) }
    | some _ => s
  match s.selectedId.bind (findLayer s) with
  | none => s
  | some sel =>
    let em := getEditMode sel
    let s := updateLayer s sel.id setHiddenStateL
    let s := updateLayer s sel.id
      (fun l => { l with route := { l.route with markers := l.route.markers ++ rd.markers } })
    updateLayer s sel.id (fun l => setEditMode l em)

/-- `addLayersToMap`: the marker-only special case (exactly one imported route
with no segments while the collection is non-empty), else the import loop. -/
def addLayersToMap (s : RoutesService) (rds : List RouteData) : RoutesService :=
  match rds with
  | [rd0] =>
    if rd0.segments.isEmpty && !s.routes.isEmpty then markerOnlyImport s rd0
    else [rd0].foldl importRouteStep s
  | rds => rds.foldl importRouteStep s

/-- `setData`: `null` (`none`) and empty payloads return immediately; otherwise
normalise marker icon types and run `addLayersToMap`.  The missing
`MapService.routesJsonToRoutesObject` (modelled from the spec) only converts
the payload representation and is the identity here. -/
def setData (s : RoutesService) (rds? : Option (List RouteData)) : RoutesService :=
  match rds? with
  | none => s
  | some rds =>
    if rds.isEmpty then s
    else addLayersToMap s (rds.map (normalizeRouteData s.iconTypes))

/-! ## Split -/

/-- Drop the first segment of a layer's route (`segments.splice(0, 1)`). -/
def dropFirstSegment (l : RouteLayer) : RouteLayer :=
  { l with route := { l.route with segments := l.route.segments.drop 1 } }

/-- Prepend a point to the first segment's point list
(`segments[0].latlngs.splice(0, 0, p)`); the call sites guard the existence of
a first segment. -/
def prependToFirstSegLatlngs (p : LatLng) (l : RouteLayer) : RouteLayer :=
  match l.route.segments with
  | [] => l
  | sg :: rest =>
    { l with route := { l.route with segments := { sg with latlngs := p :: sg.latlngs } :: rest } }

/-- Prepend a segment list (`segments.splice(0, 0, ...newSegs)`). -/
def prependSegments (newSegs : List SegmentData) (l : RouteLayer) : RouteLayer :=
  { l with route := { l.route with segments := newSegs ++ l.route.segments } }

/-- Append a segment list (`segments.push(...newSegs)`). -/
def appendSegments (newSegs : List SegmentData) (l : RouteLayer) : RouteLayer :=
  { l with route := { l.route with segments := l.route.segments ++ newSegs } }

/-- `Array.prototype.indexOf` on the segment list: the index of the first
occurrence, `none` for `-1`. -/
def indexOfFrom (seg : SegmentData) : List SegmentData → Nat → Option Nat
  | [], _ => none
  | sg :: rest, k => if sg == seg then some k else indexOfFrom seg rest (k + 1)

/-- `splitSelectedRouteAt`: trim the selected route after the given segment's
index, build the postfix payload headed by the synthetic zero-length bridging
segment, import it through `setData`, and put the resulting selection into
Edit state.  `none` is a thrown `TypeError` (no selection, or an empty postfix
when the segment is the last one). -/
def splitSelectedRouteAt (s : RoutesService) (seg : SegmentData) : Option RoutesService := do
  let selId ← s.selectedId
  let sel ← findLayer s selId
  let segmentIndex := indexOfFrom seg sel.route.segments 0
  let s := updateLayer s selId setHiddenStateL
  let splitPos := match segmentIndex with
    | some i => i + 1
    | none => 0
  let postFix := sel.route.segments.drop splitPos
  let s := updateLayer s selId
    (fun l => { l with route := { l.route with segments := l.route.segments.take splitPos } })
  let trimmed ← findLayer s selId
  let startPoint ← getLastLatLngR trimmed.route
  let rt ← postFix.head?.map (fun sg => sg.routingType)
  let bridge : SegmentData := { latlngs := [startPoint, startPoint], routePoint := startPoint, routingType := rt }
  let routePostFix : RouteData :=
    { name := some (trimmed.route.properties.name ++ s.resourcesSplit),
      segments := bridge :: postFix, markers := [] }
  let s := setData s (some [routePostFix])
  let selId2 ← s.selectedId
  let s := updateLayer s selId2 setEditRouteStateL
  some s

/-! ## Closest route and merge -/

/-- The selected route's relevant endpoint: its first point when `isFirst`,
else its last point. -/
def selEndpoint (isFirst : Bool) (r : Route) : Option LatLng :=
  if isFirst then firstLatLngR r else getLastLatLngR r

/-- The candidate loop of `getClosestRoute`: skip the selected layer and
layers with no segments; return the first layer one of whose endpoints lies
within the merge threshold of the probe point.  The outer `Option` is a thrown
`TypeError` (an endpoint dereference on malformed point lists); the inner one
is the `null` result. -/
def getClosestRouteAux (dist : LatLng → LatLng → Int) (selId : Nat) (p : LatLng) :
    List RouteLayer → Option (Option RouteLayer)
  | [] => some none
  | l :: rest =>
    if l.id == selId || l.route.segments.length ≤ 0 then
      getClosestRouteAux dist selId p rest
    else
      match getLastLatLngL l with
      | none => none
      | some q =>
        if dist q p < mergeThreshold then some (some l)
        else
          match firstLatLngR l.route with
          | none => none
          | some q2 =>
            if dist q2 p < mergeThreshold then some (some l)
            else getClosestRouteAux dist selId p rest

/-- `getClosestRoute(isFirst)`. -/
def getClosestRoute (dist : LatLng → LatLng → Int) (s : RoutesService) (isFirst : Bool) :
    Option (Option RouteLayer) := do
  let selId ← s.selectedId
  let sel ← findLayer s selId
  let p ← selEndpoint isFirst sel.route
  getClosestRouteAux dist selId p s.routes

/-- The front-extension splice of `mergeSelectedRouteToClosest` (the
`isFirst` branch after the orientation fix): drop the selected route's first
segment, prepend the closest route's end point into the new first segment's
point list, then splice the closest route's segments in front. -/
def mergeTailFirst (selId : Nat) (t : RoutesService) (cc : RouteLayer) : Option RoutesService := do
  let s := updateLayer t selId dropFirstSegment
  let sel ← findLayer s selId
  let _ ← sel.route.segments.head?
  let endPt ← getLastLatLngL cc
  let s := updateLayer s selId (prependToFirstSegLatlngs endPt)
  let s := updateLayer s selId (prependSegments cc.route.segments)
  let s := updateLayer s selId setEditRouteStateL
  some s

/-- The back-extension splice of `mergeSelectedRouteToClosest` (the other
branch): drop the closest route's first segment, prepend the selected route's
last point into the closest route's new first segment, append the closest
route's remaining segments.  Mutations of the closest layer are mirrored into
the collection (`updateLayer cc.id`) because in the source they go through a
live object reference; after the usual removal the mirror is a no-op. -/
def mergeTailLast (selId : Nat) (t : RoutesService) (cc : RouteLayer) : Option RoutesService := do
  let (s, closest) := (updateLayer t cc.id dropFirstSegment, dropFirstSegment cc)
  let _ ← closest.route.segments.head?
  let sel ← findLayer s selId
  let endPt ← getLastLatLngR sel.route
  let closest := prependToFirstSegLatlngs endPt closest
  let s := updateLayer s closest.id (prependToFirstSegLatlngs endPt)
  let s := updateLayer s selId (appendSegments closest.route.segments)
  let s := updateLayer s selId setEditRouteStateL
  some s

/-- The marker concatenation of the merge
(`selectedRoute.route.markers = selectedRoute.route.markers.concat(markersToAdd)`). -/
def concatMarkers (ms : List Marker) (l : RouteLayer) : RouteLayer :=
  { l with route := { l.route with markers := l.route.markers ++ ms } }

/-- `mergeSelectedRouteToClosest(isFirst)`: find the closest route, hide the
selection, remove the closest route by name, concatenate its markers, reverse
it when its proximal endpoint is the wrong one for splicing, then splice the
two segment lists together (`mergeTailFirst` / `mergeTailLast`) and restore
Edit state.  `none` is a thrown `TypeError` (no closest route, a deselected
selection, or a dereference past the spliced-away segments). -/
def mergeSelectedRouteToClosest (dist : LatLng → LatLng → Int) (s : RoutesService)
    (isFirst : Bool) : Option RoutesService := do
  let c? ← getClosestRoute dist s isFirst
  let closest ← c?
  let selId0 ← s.selectedId
  let s := updateLayer s selId0 setHiddenStateL
  let s := removeRoute s closest.route.properties.name
  let selId ← s.selectedId
  let s := updateLayer s selId (concatMarkers closest.route.markers)
  let sel ← findLayer s selId
  let latLngToCheck ← selEndpoint isFirst sel.route
  if isFirst then
    let q ← firstLatLngR closest.route
    let (s, closest) :=
      if dist q latLngToCheck < mergeThreshold then
        (updateLayer s closest.id reverseLayer, reverseLayer closest)
      else (s, closest)
    mergeTailFirst selId s closest
  else
    let q ← getLastLatLngL closest
    let (s, closest) :=
      if dist q latLngToCheck < mergeThreshold then
        (updateLayer s closest.id reverseLayer, reverseLayer closest)
      else (s, closest)
    mergeTailLast selId s closest

/-! ## The operation machine -/

/-- One public manager operation. -/
inductive Op where
  | add (route : Route)
  | remove (name : String)
  | change (id : Nat)
  | importData (rds? : Option (List RouteData))
  | split (seg : SegmentData)
  | merge (isFirst : Bool)
deriving Repr

/-- Apply one operation; `none` is a thrown `TypeError`. -/
def applyOp (dist : LatLng → LatLng → Int) (s : RoutesService) : Op → Option RoutesService
  | Op.add route => some (addRoute s route)
  | Op.remove name => some (removeRoute s name)
  | Op.change i => some (changeRouteState s i)
  | Op.importData rds? => some (setData s rds?)
  | Op.split seg => splitSelectedRouteAt s seg
  | Op.merge isFirst => mergeSelectedRouteToClosest dist s isFirst

/-- Run a sequence of operations; a throw aborts the run. -/
def runOps (dist : LatLng → LatLng → Int) (s : RoutesService) : List Op → Option RoutesService
  | [] => some s
  | op :: rest =>
    match applyOp dist s op with
    | none => none
    | some s1 => runOps dist s1 rest

/-! ## Name machinery lemmas -/

theorem candName_inj (base : String) {i j : Nat} (h : candName base i = candName base j) :
    i = j := by
  unfold candName at h
  have hd := congrArg String.data h
  simp only [String.data_append] at hd
  have h2 := List.append_cancel_left hd
  exact natToString_injective (String.ext h2)

theorem candName_ne_empty (base : String) (k : Nat) : candName base k ≠ "" := by
  intro h
  have hd := congrArg String.data h
  simp only [candName, String.data_append] at hd
  rcases List.append_eq_nil.mp hd with ⟨h1, -⟩
  rcases List.append_eq_nil.mp h1 with ⟨-, h2⟩
  simp at h2

theorem nameTaken_iff (routes : List RouteLayer) (nm : String) :
    nameTaken routes nm = true ↔ ∃ l ∈ routes, l.route.properties.name = nm := by
  simp [nameTaken, List.any_eq_true, beq_iff_eq]

theorem nameTaken_false_iff (routes : List RouteLayer) (nm : String) :
    nameTaken routes nm = false ↔ ∀ l ∈ routes, l.route.properties.name ≠ nm := by
  rw [← Bool.not_eq_true, nameTaken_iff]
  push_neg
  rfl

theorem probeName_find (routes : List RouteLayer) (base : String) :
    ∀ fuel k, (∃ j, j < fuel ∧ nameTaken routes (candName base (k + j)) = false) →
    ∃ j, probeName routes base fuel k = candName base (k + j) ∧
      nameTaken routes (candName base (k + j)) = false ∧
      ∀ j', j' < j → nameTaken routes (candName base (k + j')) = true := by
  intro fuel
  induction fuel with
  | zero =>
    intro k h
    obtain ⟨j, hj, -⟩ := h
    omega
  | succ fuel ih =>
    intro k h
    obtain ⟨j, hj, hfree⟩ := h
    by_cases htaken : nameTaken routes (candName base k) = true
    · have hjpos : 0 < j := by
        rcases Nat.eq_zero_or_pos j with h0 | h0
        · subst h0; simp at hfree; rw [hfree] at htaken; simp at htaken
        · exact h0
      obtain ⟨j0, heq, hfree0, hmin0⟩ := ih (k + 1)
        ⟨j - 1, by omega, by rwa [show k + 1 + (j - 1) = k + j by omega]⟩
      refine ⟨j0 + 1, ?_, ?_, ?_⟩
      · rw [probeName, if_pos htaken, heq]
        congr 1
        omega
      · rwa [show k + (j0 + 1) = k + 1 + j0 by omega]
      · intro j' hj'
        match j', hj' with
        | 0, _ => simpa using htaken
        | j'' + 1, hj' =>
          have := hmin0 j'' (by omega)
          rwa [show k + 1 + j'' = k + (j'' + 1) by omega] at this
    · refine ⟨0, ?_, ?_, ?_⟩
      · rw [probeName, if_neg htaken]
        simp
      · simp only [Nat.add_zero]
        simpa using htaken
      · omega

theorem probe_exists_free (routes : List RouteLayer) (base : String) :
    ∃ j, j < routes.length + 1 ∧ nameTaken routes (candName base (1 + j)) = false := by
  by_contra hcon
  push_neg at hcon
  have htaken : ∀ j ∈ Finset.range (routes.length + 1),
      candName base (1 + j) ∈ routes.map (fun l => l.route.properties.name) := by
    intro j hj
    have h1 := hcon j (Finset.mem_range.mp hj)
    have h2 : nameTaken routes (candName base (1 + j)) = true := by
      cases h : nameTaken routes (candName base (1 + j)) with
      | true => rfl
      | false => exact absurd h h1
    obtain ⟨l, hl, hname⟩ := (nameTaken_iff routes _).mp h2
    exact List.mem_map.mpr ⟨l, hl, hname⟩
  have hinj : Set.InjOn (fun j => candName base (1 + j)) (Finset.range (routes.length + 1)) := by
    intro a _ b _ hab
    have := candName_inj base hab
    omega
  have hsub : (Finset.range (routes.length + 1)).image (fun j => candName base (1 + j)) ⊆
      (routes.map (fun l => l.route.properties.name)).toFinset := by
    intro x hx
    obtain ⟨j, hj, rfl⟩ := Finset.mem_image.mp hx
    exact List.mem_toFinset.mpr (htaken j hj)
  have h1 := Finset.card_le_card hsub
  rw [Finset.card_image_of_injOn hinj, Finset.card_range] at h1
  have h2 := (routes.map (fun l => l.route.properties.name)).toFinset_card_le
  simp only [List.length_map] at h2
  omega

theorem createRouteName_spec (s : RoutesService) (routeName : Option String) :
    ∃ k, 1 ≤ k ∧
      createRouteName s routeName =
        candName (stripNumberSuffix (routeName.getD s.resourcesRoute)) k ∧
      nameTaken s.routes (candName (stripNumberSuffix (routeName.getD s.resourcesRoute)) k) = false ∧
      ∀ j, 1 ≤ j → j < k →
        nameTaken s.routes (candName (stripNumberSuffix (routeName.getD s.resourcesRoute)) j) = true := by
  obtain ⟨j0, hj0, hfree⟩ := probe_exists_free s.routes (stripNumberSuffix (routeName.getD s.resourcesRoute))
  obtain ⟨j, heq, hfree', hmin⟩ :=
    probeName_find s.routes (stripNumberSuffix (routeName.getD s.resourcesRoute))
      (s.routes.length + 1) 1 ⟨j0, hj0, hfree⟩
  refine ⟨1 + j, by omega, heq, hfree', ?_⟩
  intro j' h1 h2
  have := hmin (j' - 1) (by omega)
  rwa [show 1 + (j' - 1) = j' by omega] at this

theorem isNameAvailable_createRouteName (s : RoutesService) (rn : Option String) :
    isNameAvailable s (some (createRouteName s rn)) = true := by
  obtain ⟨k, -, heq, hfree, -⟩ := createRouteName_spec s rn
  rw [heq]
  unfold isNameAvailable
  rw [Bool.and_eq_true]
  constructor
  · rw [Option.isNone_iff_eq_none]
    apply List.find?_eq_none.mpr
    intro l hl
    have := (nameTaken_false_iff s.routes _).mp hfree l hl
    simpa using this
  · simpa [bne_iff_ne] using candName_ne_empty _ k

/-! ## Claim C3 -/

/-- A concrete layer, used to build scenario states. -/
def mkLayer (i : Nat) (nm : String) (segs : List SegmentData) (mks : List Marker) : RouteLayer :=
  { id := i,
    route := { properties := { name := nm, isVisible := true }, segments := segs, markers := mks },
    state := LayerState.ReadOnly, editMode := EditMode.None }

/-- A collection holding routes named "Route 1" and "Route 2". -/
def c3state : RoutesService :=
  { routes := [mkLayer 0 "Route 1" [] [], mkLayer 1 "Route 2" [] []],
    selectedId := none, nextId := 2,
    resourcesRoute := "Route", resourcesSplit := " Split", iconTypes := ["star"] }

/-- C3: for every base string, `createRouteName(base)` strips a trailing
" <number>" suffix from the base, then returns "<stripped base> <k>" for the
smallest integer k ≥ 1 whose candidate no route bears, `isNameAvailable` holds
for the returned name, and in a collection holding "Route 1" and "Route 2",
`createRouteName("Route")` returns "Route 3". -/
theorem claim_C3 :
    (∀ (s : RoutesService) (base : String), ∃ k, 1 ≤ k ∧
      createRouteName s (some base) = candName (stripNumberSuffix base) k ∧
      nameTaken s.routes (candName (stripNumberSuffix base) k) = false ∧
      (∀ j, 1 ≤ j → j < k → nameTaken s.routes (candName (stripNumberSuffix base) j) = true) ∧
      isNameAvailable s (some (createRouteName s (some base))) = true) ∧
    createRouteName c3state (some "Route") = "Route 3" := by
  constructor
  · intro s base
    obtain ⟨k, hk, heq, hfree, hmin⟩ := createRouteName_spec s (some base)
    exact ⟨k, hk, heq, hfree, hmin, isNameAvailable_createRouteName s (some base)⟩
  · rfl

/-! ## Claim C10 -/

/-- C10: `setData` with a `null` argument or an empty route list returns
immediately, leaving the whole manager state (collection, selection, every
route's data) unchanged. -/
theorem claim_C10 (s : RoutesService) : setData s none = s ∧ setData s (some []) = s := by
  constructor <;> rfl

/-! ## Claim C1: name distinctness -/

/-- The collection's route names in order. -/
def routeNames (s : RoutesService) : List String :=
  s.routes.map (fun l => l.route.properties.name)

/-- Pairwise-distinct route names. -/
def namesNodup (s : RoutesService) : Prop :=
  (routeNames s).Nodup

theorem routeNames_updateLayer (s : RoutesService) (i : Nat) (f : RouteLayer → RouteLayer)
    (hf : ∀ l, (f l).route.properties.name = l.route.properties.name) :
    routeNames (updateLayer s i f) = routeNames s := by
  unfold routeNames updateLayer
  simp only [List.map_map]
  apply List.map_congr_left
  intro l _
  by_cases h : l.id = i <;> simp [h, hf]

theorem routeNames_selectRoute (s : RoutesService) (o : Option Nat) :
    routeNames (selectRoute s o) = routeNames s := by
  unfold selectRoute
  cases h : s.selectedId with
  | none => rfl
  | some i =>
    show routeNames (updateLayer s i setReadOnlyStateL) = routeNames s
    exact routeNames_updateLayer s i _ (fun l => rfl)

theorem isNameAvailable_not_taken (s : RoutesService) (nm? : Option String) (nm : String)
    (h : isNameAvailable s nm? = true) (heq : nm? = some nm) :
    nameTaken s.routes nm = false := by
  subst heq
  unfold isNameAvailable at h
  rw [Bool.and_eq_true, Option.isNone_iff_eq_none] at h
  apply (nameTaken_false_iff _ _).mpr
  intro l hl
  have := List.find?_eq_none.mp h.1 l hl
  simpa using this

/-- The shape of one import-loop iteration, as one equation. -/
theorem importRouteStep_def (s : RoutesService) (rd : RouteData) :
    importRouteStep s rd =
      selectRoute
        (updateLayer
          { s with
            routes := s.routes ++ [createRouteLayerFromData s.nextId
              (if isNameAvailable s rd.name then rd
               else { rd with name := some (createRouteName s rd.name) })],
            nextId := s.nextId + 1 }
          s.nextId mapAddLayerL)
        (some s.nextId) := rfl

theorem routeNames_importRouteStep (s : RoutesService) (rd : RouteData) :
    ∃ nm, routeNames (importRouteStep s rd) = routeNames s ++ [nm] ∧
      nameTaken s.routes nm = false := by
  by_cases hav : isNameAvailable s rd.name = true
  · obtain ⟨n, hname⟩ : ∃ n, rd.name = some n := by
      cases h : rd.name with
      | none => rw [h] at hav; simp [isNameAvailable] at hav
      | some n => exact ⟨n, rfl⟩
    refine ⟨n, ?_, isNameAvailable_not_taken s rd.name n hav hname⟩
    rw [importRouteStep_def, routeNames_selectRoute, routeNames_updateLayer _ _ _ ?hf1,
      if_pos hav]
    case hf1 => intro l; rfl
    simp [routeNames, createRouteLayerFromData, hname]
  · obtain ⟨k, -, heq, hfree, -⟩ := createRouteName_spec s rd.name
    refine ⟨createRouteName s rd.name, ?_, heq ▸ hfree⟩
    rw [importRouteStep_def, routeNames_selectRoute, routeNames_updateLayer _ _ _ ?hf2,
      if_neg hav]
    case hf2 => intro l; rfl
    simp [routeNames, createRouteLayerFromData]

theorem namesNodup_importRouteStep (s : RoutesService) (rd : RouteData)
    (h : namesNodup s) : namesNodup (importRouteStep s rd) := by
  obtain ⟨nm, heq, hfree⟩ := routeNames_importRouteStep s rd
  unfold namesNodup at *
  rw [heq]
  rw [List.nodup_append]
  refine ⟨h, List.nodup_singleton nm, ?_⟩
  intro x hx hmem
  have hne := (nameTaken_false_iff s.routes nm).mp hfree
  obtain ⟨l, hl, hname⟩ := List.mem_map.mp hx
  rw [List.mem_singleton] at hmem
  exact hne l hl (hname.trans hmem)

theorem namesNodup_foldl_import (rds : List RouteData) :
    ∀ s : RoutesService, namesNodup s → namesNodup (rds.foldl importRouteStep s) := by
  induction rds with
  | nil => intro s h; exact h
  | cons rd rest ih =>
    intro s h
    exact ih _ (namesNodup_importRouteStep s rd h)

/-- The marker-only special case, as one equation over an explicit resolved
target state. -/
theorem markerOnlyImport_def (s : RoutesService) (rd : RouteData) :
    markerOnlyImport s rd =
      (let s1 : RoutesService := match s.selectedId with
        | none => { s with selectedId := s.routes.head?.map (fun l => l.id) }
        | some _ => s
      match s1.selectedId.bind (findLayer s1) with
      | none => s1
      | some sel =>
        updateLayer
          (updateLayer (updateLayer s1 sel.id setHiddenStateL) sel.id
            (fun l => { l with route := { l.route with markers := l.route.markers ++ rd.markers } }))
          sel.id (fun l => setEditMode l (getEditMode sel))) := rfl

theorem routeNames_markerOnly_core (t : RoutesService) (rd : RouteData) (sel : RouteLayer) :
    routeNames
      (updateLayer
        (updateLayer (updateLayer t sel.id setHiddenStateL) sel.id
          (fun l => { l with route := { l.route with markers := l.route.markers ++ rd.markers } }))
        sel.id (fun l => setEditMode l (getEditMode sel))) = routeNames t := by
  rw [routeNames_updateLayer _ _ _ ?h3, routeNames_updateLayer _ _ _ ?h2,
    routeNames_updateLayer _ _ _ ?h1]
  case h1 => intro l; rfl
  case h2 => intro l; rfl
  case h3 =>
    intro l
    unfold setEditMode
    cases getEditMode sel <;> rfl

theorem routeNames_markerOnlyImport (s : RoutesService) (rd : RouteData) :
    routeNames (markerOnlyImport s rd) = routeNames s := by
  rw [markerOnlyImport_def]
  cases hsel : s.selectedId with
  | none =>
    simp only [hsel]
    cases hfind : ((({ s with selectedId := s.routes.head?.map (fun l => l.id) } :
        RoutesService)).selectedId.bind
        (findLayer { s with selectedId := s.routes.head?.map (fun l => l.id) })) with
    | none => simp only [hfind]; rfl
    | some sel =>
      simp only [hfind]
      exact routeNames_markerOnly_core _ rd sel
  | some i =>
    simp only [hsel, Option.some_bind]
    cases hfind : findLayer s i with
    | none => simp only [hfind]
    | some sel =>
      simp only [hfind]
      exact routeNames_markerOnly_core s rd sel

/-- `setData` on a non-`null` payload, as one equation. -/
theorem setData_some_def (s : RoutesService) (rds : List RouteData) :
    setData s (some rds) =
      if rds.isEmpty then s
      else addLayersToMap s (rds.map (normalizeRouteData s.iconTypes)) := rfl

theorem namesNodup_setData (s : RoutesService) (rds? : Option (List RouteData))
    (h : namesNodup s) : namesNodup (setData s rds?) := by
  cases rds? with
  | none => exact h
  | some rds =>
    rw [setData_some_def]
    by_cases hemp : rds.isEmpty = true
    · rw [if_pos hemp]; exact h
    · rw [if_neg hemp]
      cases hmap : rds.map (normalizeRouteData s.iconTypes) with
      | nil => exact h
      | cons rd0 rest =>
        cases rest with
        | nil =>
          show namesNodup (if rd0.segments.isEmpty && !s.routes.isEmpty then
            markerOnlyImport s rd0 else [rd0].foldl importRouteStep s)
          by_cases hc : (rd0.segments.isEmpty && !s.routes.isEmpty) = true
          · rw [if_pos hc]
            unfold namesNodup
            rw [routeNames_markerOnlyImport]
            exact h
          · rw [if_neg hc]
            exact namesNodup_foldl_import [rd0] s h
        | cons rd1 rest2 =>
          exact namesNodup_foldl_import (rd0 :: rd1 :: rest2) s h

/-- C1 (amended): `addRoute` performs no renaming, so it can create duplicate
names; the renaming invariant belongs to the import path.  For every sequence
of `setData` calls starting from the empty manager, route names stay pairwise
distinct, colliding imports being renamed via `createRouteName` before
entering the collection. -/
theorem claim_C1_amended (resRoute resSplit : String) (icons : List String)
    (payloads : List (Option (List RouteData))) :
    ((payloads.foldl setData (initService resRoute resSplit icons)).routes.map
      (fun l => l.route.properties.name)).Nodup := by
  have hrun : ∀ s : RoutesService, namesNodup s → namesNodup (payloads.foldl setData s) := by
    induction payloads with
    | nil => intro s h; exact h
    | cons p rest ih =>
      intro s h
      exact ih _ (namesNodup_setData s p h)
  exact hrun (initService resRoute resSplit icons) (by simp [namesNodup, routeNames, initService])

/-- The route named "X" used to exhibit duplicate names. -/
def routeX : Route :=
  { properties := { name := "X", isVisible := false }, segments := [], markers := [] }

/-- Two `addRoute` calls with the same route name, from the empty manager. -/
def dupState : RoutesService :=
  addRoute (addRoute (initService "Route" " Split" ["star"]) routeX) routeX

/-- C1 counterexample: after two `addRoute` calls carrying the name "X", the
collection holds two routes both named "X" — `addRoute` never invokes
`createRouteName`, so the claimed pairwise-distinctness fails. -/
theorem claim_C1_counterexample :
    (dupState.routes.map (fun l => l.route.properties.name)) = ["X", "X"] ∧
    ¬ (dupState.routes.map (fun l => l.route.properties.name)).Nodup := by
  constructor
  · rfl
  · decide

/-! ## Claim C8: removeRoute -/

theorem removeFirst_no_match :
    ∀ (routes : List RouteLayer) (nm : String) (layer : RouteLayer),
    routes.find? (fun l => l.route.properties.name == nm) = some layer →
    (routes.map (fun l => l.id)).Nodup →
    (routes.filter (fun l => l.route.properties.name == nm)).length ≤ 1 →
    ∀ l ∈ removeFirstById routes layer.id, (l.route.properties.name == nm) = false := by
  intro routes
  induction routes with
  | nil =>
    intro nm layer hfind
    simp at hfind
  | cons r rest ih =>
    intro nm layer hfind hids hcount l hl
    by_cases hr : (r.route.properties.name == nm) = true
    · simp only [List.find?, hr] at hfind
      have hlayer : layer = r := by
        injection hfind with h
        exact h.symm
      subst hlayer
      rw [removeFirstById, if_pos (by simp)] at hl
      have hlen : (rest.filter (fun l => l.route.properties.name == nm)).length = 0 := by
        simp only [List.filter, hr, List.length_cons] at hcount
        omega
      have hnil := List.length_eq_zero.mp hlen
      have := List.filter_eq_nil_iff.mp hnil l hl
      simpa using this
    · have hrfalse : (r.route.properties.name == nm) = false := by
        simpa using hr
      simp only [List.find?, hrfalse] at hfind
      have hmem : layer ∈ rest := List.mem_of_find?_eq_some hfind
      have hrid : (r.id == layer.id) = false := by
        have hne : r.id ≠ layer.id := by
          intro hcontra
          rw [List.map_cons, List.nodup_cons] at hids
          exact hids.1 (hcontra ▸ List.mem_map_of_mem (fun l => l.id) hmem)
        simpa using hne
      rw [removeFirstById, if_neg (by simp [hrid])] at hl
      rcases List.mem_cons.mp hl with h | h
      · subst h; exact hrfalse
      · refine ih nm layer hfind ?_ ?_ l h
        · rw [List.map_cons, List.nodup_cons] at hids
          exact hids.2
        · simp only [List.filter, hrfalse] at hcount
          exact hcount

/-- `find?` through a map that preserves the tested field. -/
theorem find?_map_name (routes : List RouteLayer) (g : RouteLayer → RouteLayer) (nm : String)
    (hg : ∀ l, (g l).route.properties.name = l.route.properties.name) :
    (routes.map g).find? (fun l => l.route.properties.name == nm) =
      (routes.find? (fun l => l.route.properties.name == nm)).map g := by
  rw [List.find?_map]
  have hcomp : ((fun l => l.route.properties.name == nm) ∘ g) =
      (fun l : RouteLayer => l.route.properties.name == nm) := by
    funext l
    simp [Function.comp, hg]
  rw [hcomp]

theorem selectRoute_routes (s : RoutesService) (o : Option Nat) :
    (selectRoute s o).routes = match s.selectedId with
      | some i => s.routes.map (fun l => if l.id == i then setReadOnlyStateL l else l)
      | none => s.routes := by
  unfold selectRoute updateLayer
  cases s.selectedId <;> rfl

theorem selectRoute_selectedId (s : RoutesService) (o : Option Nat) :
    (selectRoute s o).selectedId = o := by
  unfold selectRoute
  cases s.selectedId <;> rfl

/-- C8 (amended): `removeRoute(name)` is a no-op when no route with that name
exists; when the first route bearing the name is the current selection, the
selection becomes `null` (no other route is promoted); and when at most one
route bears the name (the spec's intended regime), no route named `name`
remains afterwards.  `removeRoute` only ever removes the first name match, so
with duplicate names (reachable through `addRoute`) a namesake can remain. -/
theorem claim_C8_amended (s : RoutesService) (name : String) :
    (getRouteByName s name = none → removeRoute s name = s) ∧
    (∀ layer, getRouteByName s name = some layer → s.selectedId = some layer.id →
      (removeRoute s name).selectedId = none) ∧
    ((s.routes.map (fun l => l.id)).Nodup →
      (s.routes.filter (fun l => l.route.properties.name == name)).length ≤ 1 →
      getRouteByName (removeRoute s name) name = none) := by
  refine ⟨?_, ?_, ?_⟩
  · intro hnone
    unfold removeRoute
    rw [hnone]
  · intro layer hfind hsel
    unfold removeRoute
    rw [hfind]
    have hbeq : (s.selectedId == some layer.id) = true := by
      rw [hsel]; simp
    simp only [hbeq, if_true]
    show (selectRoute s none).selectedId = none
    exact selectRoute_selectedId s none
  · intro hids hcount
    unfold removeRoute
    cases hfind : getRouteByName s name with
    | none => exact hfind
    | some layer =>
      have hremoved : ∀ g : RouteLayer → RouteLayer,
          (∀ l, (g l).route.properties.name = l.route.properties.name) →
          (∀ l, (g l).id = l.id) →
          ∀ l ∈ removeFirstById (s.routes.map g) layer.id,
            (l.route.properties.name == name) = false := by
        intro g hgn hgi l hl
        have hfind2 : (s.routes.map g).find? (fun l => l.route.properties.name == name) =
            some (g layer) := by
          rw [find?_map_name s.routes g name hgn]
          unfold getRouteByName at hfind
          rw [hfind]
          rfl
        have hids2 : ((s.routes.map g).map (fun l => l.id)).Nodup := by
          rw [List.map_map]
          have : ((fun l => l.id) ∘ g) = (fun (l : RouteLayer) => l.id) := by
            funext l; exact hgi l
          rwa [this]
        have hcount2 : ((s.routes.map g).filter
            (fun l => l.route.properties.name == name)).length ≤ 1 := by
          rw [List.filter_map]
          have : ((fun l => l.route.properties.name == name) ∘ g) =
              (fun (l : RouteLayer) => l.route.properties.name == name) := by
            funext l; simp [Function.comp, hgn]
          rw [this, List.length_map]
          exact hcount
        have := removeFirst_no_match (s.routes.map g) name (g layer) hfind2 hids2 hcount2
        rw [hgi layer] at this
        exact this l hl
      by_cases hselb : (s.selectedId == some layer.id) = true
      · simp only [hselb, if_true]
        apply List.find?_eq_none.mpr
        intro l hl
        rw [selectRoute_routes] at hl
        cases hselid : s.selectedId with
        | none => rw [hselid] at hselb; simp at hselb
        | some i =>
          rw [hselid] at hl
          have := hremoved (fun l => if l.id == i then setReadOnlyStateL l else l)
            (fun l => by by_cases h : l.id = i <;> simp [h, setReadOnlyStateL])
            (fun l => by by_cases h : l.id = i <;> simp [h, setReadOnlyStateL]) l hl
          simpa using this
      · simp only [hselb, if_false]
        apply List.find?_eq_none.mpr
        intro l hl
        have hl' : l ∈ removeFirstById (s.routes.map id) layer.id := by
          simpa using hl
        have := hremoved id (fun l => rfl) (fun l => rfl) l hl'
        simpa using this

/-- The duplicate-name collection of `dupState`, but with the first "X" route
selected, so that the selected route is removed and `selectRoute` keeps the
second namesake. -/
theorem claim_C8_witness :
    removeRoute c3state "Zed" = c3state ∧
    (removeRoute dupState "X").selectedId = some 1 ∧
    getRouteByName (removeRoute c3state "Route 2") "Route 2" = none := by
  refine ⟨?_, ?_, ?_⟩
  · exact (claim_C8_amended c3state "Zed").1 (by decide)
  · decide
  · exact (claim_C8_amended c3state "Route 2").2.2 (by decide) (by decide)

/-- C8 counterexample: in `dupState` a route named "X" exists and is the
current selection (the second layer), yet `removeRoute "X"` removes the other
namesake: the selection stays `some 1` instead of becoming `null`, and a route
named "X" remains in the collection. -/
theorem claim_C8_counterexample :
    (getRouteByName dupState "X").isSome = true ∧
    dupState.selectedId = some 1 ∧
    ((findLayer dupState 1).map (fun l => l.route.properties.name)) = some "X" ∧
    (removeRoute dupState "X").selectedId = some 1 ∧
    ((removeRoute dupState "X").routes.map (fun l => l.route.properties.name)) = ["X"] := by
  refine ⟨by decide, by decide, by decide, by decide, by decide⟩

/-! ## Claim C9: marker-only import -/

theorem findLayer_updateLayer (s : RoutesService) (j i : Nat) (f : RouteLayer → RouteLayer)
    (hf : ∀ l, (f l).id = l.id) :
    findLayer (updateLayer s i f) j =
      (findLayer s j).map (fun l => if l.id == i then f l else l) := by
  unfold findLayer updateLayer
  rw [List.find?_map]
  have hcomp : ((fun l => l.id == j) ∘ (fun l => if l.id == i then f l else l)) =
      (fun l : RouteLayer => l.id == j) := by
    funext l
    by_cases h : l.id = i <;> simp [Function.comp, h, hf]
  rw [hcomp]

theorem updateLayer_length (s : RoutesService) (i : Nat) (f : RouteLayer → RouteLayer) :
    (updateLayer s i f).routes.length = s.routes.length := by
  unfold updateLayer
  simp

@[simp]
theorem updateLayer_selectedId (s : RoutesService) (i : Nat) (f : RouteLayer → RouteLayer) :
    (updateLayer s i f).selectedId = s.selectedId := rfl

@[simp]
theorem updateLayer_nextId (s : RoutesService) (i : Nat) (f : RouteLayer → RouteLayer) :
    (updateLayer s i f).nextId = s.nextId := rfl

@[simp]
theorem updateLayer_resourcesSplit (s : RoutesService) (i : Nat) (f : RouteLayer → RouteLayer) :
    (updateLayer s i f).resourcesSplit = s.resourcesSplit := rfl

@[simp]
theorem updateLayer_resourcesRoute (s : RoutesService) (i : Nat) (f : RouteLayer → RouteLayer) :
    (updateLayer s i f).resourcesRoute = s.resourcesRoute := rfl

@[simp]
theorem updateLayer_iconTypes (s : RoutesService) (i : Nat) (f : RouteLayer → RouteLayer) :
    (updateLayer s i f).iconTypes = s.iconTypes := rfl

theorem getEditMode_setEditMode (l : RouteLayer) (m : EditMode) :
    getEditMode (setEditMode l m) = m := by
  cases m <;> simp [setEditMode, setReadOnlyStateL, getEditMode]

/-- The hide → append markers → restore edit mode cycle of the marker-only
import, on a resolved target layer (proof-side abbreviation of the matched
branch of `markerOnlyImport`). -/
def markerOnlyImport_core (t : RoutesService) (rd : RouteData) (sel : RouteLayer) : RoutesService :=
  updateLayer
    (updateLayer (updateLayer t sel.id setHiddenStateL) sel.id
      (fun l => { l with route := { l.route with markers := l.route.markers ++ rd.markers } }))
    sel.id (fun l => setEditMode l (getEditMode sel))

/-- C9: importing exactly one route with zero segments into a non-empty
collection appends its markers to the target route (the selection, or the
first route when nothing is selected), restores the target's edit mode after
the temporary hide, adds no route to the collection, and leaves the target
selected.  The marker-type hypothesis makes the icon normalisation of
`setData` the identity, matching a well-formed payload. -/
theorem claim_C9 (s : RoutesService) (rd : RouteData) (tid : Nat) (sel : RouteLayer)
    (hne : s.routes.isEmpty = false)
    (hseg : rd.segments = [])
    (hicons : ∀ m ∈ rd.markers, m.type ∈ s.iconTypes)
    (htid : s.selectedId = some tid ∨
      (s.selectedId = none ∧ s.routes.head?.map (fun l => l.id) = some tid))
    (hfind : findLayer s tid = some sel) :
    ∃ sel', findLayer (setData s (some [rd])) tid = some sel' ∧
      sel'.route.markers = sel.route.markers ++ rd.markers ∧
      getEditMode sel' = getEditMode sel ∧
      (setData s (some [rd])).routes.length = s.routes.length ∧
      (setData s (some [rd])).selectedId = some tid := by
  have hnorm : normalizeRouteData s.iconTypes rd = rd := by
    unfold normalizeRouteData
    have hm : rd.markers.map (normalizeMarker s.iconTypes) = rd.markers := by
      refine (List.map_congr_left ?_).trans (List.map_id _)
      intro m hm
      unfold normalizeMarker
      rw [if_pos ?_]
      · rfl
      · exact List.elem_eq_true_of_mem (hicons m hm)
    cases rd
    simp_all
  have hsd : setData s (some [rd]) = markerOnlyImport s rd := by
    rw [setData_some_def, if_neg (by simp)]
    simp only [List.map_cons, List.map_nil, hnorm]
    show (if rd.segments.isEmpty && !s.routes.isEmpty then markerOnlyImport s rd
      else [rd].foldl importRouteStep s) = markerOnlyImport s rd
    rw [if_pos (by simp [hseg, hne])]
  rw [hsd]
  -- resolve the target state of markerOnlyImport
  have main : ∀ t : RoutesService, t.routes = s.routes → t.selectedId = some tid →
      ∃ sel', findLayer (markerOnlyImport_core t rd sel) tid = some sel' ∧
        sel'.route.markers = sel.route.markers ++ rd.markers ∧
        getEditMode sel' = getEditMode sel ∧
        (markerOnlyImport_core t rd sel).routes.length = s.routes.length ∧
        (markerOnlyImport_core t rd sel).selectedId = some tid := by
    intro t hroutes hsel
    have hid : sel.id = tid := by
      unfold findLayer at hfind
      have := List.find?_some hfind
      simpa using this
    have hfindt : findLayer t tid = some sel := by
      unfold findLayer at hfind ⊢
      rw [hroutes]
      exact hfind
    refine ⟨setEditMode { sel with
        state := LayerState.Hidden,
        route := { sel.route with markers := sel.route.markers ++ rd.markers } }
        (getEditMode sel), ?_, ?_, ?_, ?_, ?_⟩
    · unfold markerOnlyImport_core
      rw [findLayer_updateLayer _ _ _ _ ?hid3, findLayer_updateLayer _ _ _ _ ?hid2,
        findLayer_updateLayer _ _ _ _ ?hid1, hfindt]
      case hid1 => intro l; rfl
      case hid2 => intro l; rfl
      case hid3 =>
        intro l
        unfold setEditMode setReadOnlyStateL
        cases getEditMode sel <;> rfl
      simp [setHiddenStateL]
    · cases hgem : getEditMode sel <;>
        simp [setEditMode, setReadOnlyStateL]
    · rw [getEditMode_setEditMode]
    · unfold markerOnlyImport_core
      rw [updateLayer_length, updateLayer_length, updateLayer_length, hroutes]
    · unfold markerOnlyImport_core
      rw [updateLayer_selectedId, updateLayer_selectedId, updateLayer_selectedId, hsel]
  rcases htid with hsel | ⟨hnone, hhead⟩
  · have : markerOnlyImport s rd = markerOnlyImport_core s rd sel := by
      rw [markerOnlyImport_def]
      simp only [hsel, Option.some_bind, hfind]
      rfl
    rw [this]
    exact main s rfl hsel
  · have hs1 : markerOnlyImport s rd =
        markerOnlyImport_core { s with selectedId := some tid } rd sel := by
      rw [markerOnlyImport_def]
      simp only [hnone]
      rw [hhead]
      simp only [Option.some_bind]
      rw [show findLayer { s with selectedId := some tid } tid = some sel from hfind]
      rfl
    rw [hs1]
    exact main _ rfl rfl

/-! ## Concrete scenario material -/

/-- A point on the equatorial axis used by concrete scenarios. -/
def pt (x : Int) : LatLng :=
  { lat := 0, lng := x }

/-- A concrete executable distance function for witnesses: taxicab metric. -/
def taxiDist (p q : LatLng) : Int :=
  ((p.lat - q.lat).natAbs + (p.lng - q.lng).natAbs : Nat)

def segA : SegmentData := { latlngs := [pt 0, pt 10], routePoint := pt 10, routingType := "Hike" }

def segB : SegmentData := { latlngs := [pt 20, pt 2000], routePoint := pt 2000, routingType := "Hike" }

def segC : SegmentData := { latlngs := [pt 2000, pt 3000], routePoint := pt 3000, routingType := "Bike" }

def markerM : Marker := { latlng := pt 5, title := "m", type := "star" }

/-- One-route collection with the route selected. -/
def c9state : RoutesService :=
  { routes := [mkLayer 0 "A" [segA] []], selectedId := some 0, nextId := 1,
    resourcesRoute := "Route", resourcesSplit := " Split", iconTypes := ["star"] }

def c9data : RouteData := { name := none, segments := [], markers := [markerM] }

theorem claim_C9_witness :
    ∃ sel', findLayer (setData c9state (some [c9data])) 0 = some sel' ∧
      sel'.route.markers = (mkLayer 0 "A" [segA] []).route.markers ++ c9data.markers ∧
      getEditMode sel' = getEditMode (mkLayer 0 "A" [segA] []) ∧
      (setData c9state (some [c9data])).routes.length = c9state.routes.length ∧
      (setData c9state (some [c9data])).selectedId = some 0 :=
  claim_C9 c9state c9data 0 (mkLayer 0 "A" [segA] []) (by decide) (by decide) (by decide)
    (Or.inl (by decide)) (by decide)

/-! ## Claim C4: split -/

theorem indexOfFrom_getElem (seg : SegmentData) :
    ∀ (xs : List SegmentData) (k j : Nat), indexOfFrom seg xs k = some j →
      k ≤ j ∧ xs[j - k]? = some seg := by
  intro xs
  induction xs with
  | nil =>
    intro k j h
    simp [indexOfFrom] at h
  | cons sg rest ih =>
    intro k j h
    rw [indexOfFrom] at h
    by_cases hbeq : (sg == seg) = true
    · rw [if_pos hbeq] at h
      injection h with h
      subst h
      refine ⟨Nat.le_refl k, ?_⟩
      rw [Nat.sub_self]
      rw [beq_iff_eq] at hbeq
      simp [hbeq]
    · rw [if_neg hbeq] at h
      obtain ⟨hk, hget⟩ := ih (k + 1) j h
      refine ⟨by omega, ?_⟩
      rw [show j - k = (j - (k + 1)) + 1 by omega]
      simpa using hget

theorem getLast?_take_of_getElem? {α : Type} (xs : List α) (j : Nat) (x : α)
    (hx : xs[j]? = some x) : (xs.take (j + 1)).getLast? = some x := by
  have hlen : j < xs.length := by
    by_contra hcon
    rw [List.getElem?_eq_none (by omega)] at hx
    cases hx
  rw [List.getLast?_eq_getElem?, List.length_take_of_le (by omega)]
  simp only [Nat.add_sub_cancel]
  rw [List.getElem?_take, if_pos (by omega)]
  exact hx

theorem find?_append_left {α : Type} (p : α → Bool) (l1 l2 : List α) (x : α)
    (h : l1.find? p = some x) : (l1 ++ l2).find? p = some x := by
  rw [List.find?_append, h]
  rfl

/-- The import step always appends one fresh layer built from the payload with
some (possibly renamed) name, then attaches and selects it. -/
theorem importRouteStep_shape (t : RoutesService) (rd : RouteData) :
    ∃ nm, importRouteStep t rd =
      selectRoute
        (updateLayer
          { t with
            routes := t.routes ++ [createRouteLayerFromData t.nextId ({ rd with name := some nm })],
            nextId := t.nextId + 1 }
          t.nextId mapAddLayerL)
        (some t.nextId) := by
  rw [importRouteStep_def]
  by_cases hav : isNameAvailable t rd.name = true
  · obtain ⟨n, hname⟩ : ∃ n, rd.name = some n := by
      cases h : rd.name with
      | none => rw [h] at hav; simp [isNameAvailable] at hav
      | some n => exact ⟨n, rfl⟩
    refine ⟨n, ?_⟩
    rw [if_pos hav]
    have : ({ rd with name := some n } : RouteData) = rd := by
      cases rd
      simp_all
    rw [this]
  · refine ⟨createRouteName t rd.name, ?_⟩
    rw [if_neg hav]

theorem updateLayer_routes (s : RoutesService) (i : Nat) (f : RouteLayer → RouteLayer) :
    (updateLayer s i f).routes = s.routes.map (fun l => if l.id == i then f l else l) := rfl

theorem selectRoute_routes_some (t : RoutesService) (o : Option Nat) (i : Nat)
    (h : t.selectedId = some i) :
    (selectRoute t o).routes = t.routes.map (fun l => if l.id == i then setReadOnlyStateL l else l) := by
  rw [selectRoute_routes, h]

theorem findLayer_selectRoute_some (t : RoutesService) (i : Nat) (o : Option Nat) (j : Nat)
    (hsel : t.selectedId = some i) :
    findLayer (selectRoute t o) j =
      (findLayer t j).map (fun l => if l.id == i then setReadOnlyStateL l else l) := by
  unfold findLayer
  rw [selectRoute_routes, hsel]
  rw [List.find?_map]
  have hcomp : ((fun l => l.id == j) ∘ (fun l => if l.id == i then setReadOnlyStateL l else l)) =
      (fun l : RouteLayer => l.id == j) := by
    funext l
    by_cases h : l.id = i <;> simp [Function.comp, h, setReadOnlyStateL]
  rw [hcomp]

/-- `setData` on a single segment-bearing marker-less payload is one import
step. -/
theorem setData_single_import (t : RoutesService) (rd : RouteData)
    (hseg : rd.segments ≠ []) (hmk : rd.markers = []) :
    setData t (some [rd]) = importRouteStep t rd := by
  rw [setData_some_def, if_neg (by simp)]
  have hnorm : normalizeRouteData t.iconTypes rd = rd := by
    unfold normalizeRouteData
    rw [hmk]
    cases rd
    simp_all
  simp only [List.map_cons, List.map_nil, hnorm]
  show (if rd.segments.isEmpty && !t.routes.isEmpty then markerOnlyImport t rd
    else [rd].foldl importRouteStep t) = importRouteStep t rd
  rw [if_neg ?_]
  · rfl
  · simp [hseg]

/-- C4 (amended): splitting the selected route at a segment that occurs at
index `j` and is not the last segment succeeds: the shortened original keeps
the first `j + 1` segments (so the two segment counts sum to the original
count plus one), the new postfix route starts with the synthetic bridging
segment whose two points are both the original's post-split end point `p` and
whose routing type is the following segment's, and the original's remaining
last point is the split segment's own (pre-split) last point.  Splitting at
the last segment throws instead (see the counterexample). -/
theorem claim_C4_amended (s : RoutesService) (seg nextSeg : SegmentData) (selId j : Nat)
    (sel : RouteLayer) (p : LatLng)
    (hsel : s.selectedId = some selId)
    (hfind : findLayer s selId = some sel)
    (hidx : indexOfFrom seg sel.route.segments 0 = some j)
    (hnext : sel.route.segments[j + 1]? = some nextSeg)
    (hlast : seg.latlngs.getLast? = some p)
    (hlt : selId < s.nextId) :
    ∃ s', splitSelectedRouteAt s seg = some s' ∧
      ∃ orig post,
        findLayer s' selId = some orig ∧
        s'.routes.getLast? = some post ∧
        orig.route.segments = sel.route.segments.take (j + 1) ∧
        post.route.segments =
          { latlngs := [p, p], routePoint := p, routingType := nextSeg.routingType } ::
            sel.route.segments.drop (j + 1) ∧
        orig.route.segments.length + post.route.segments.length =
          sel.route.segments.length + 1 ∧
        getLastLatLngR orig.route = some p ∧
        s'.routes.length = s.routes.length + 1 := by
  have hj0 := (indexOfFrom_getElem seg sel.route.segments 0 j hidx).2
  rw [Nat.sub_zero] at hj0
  have hjlt : j + 1 < sel.route.segments.length := by
    by_contra hcon
    rw [List.getElem?_eq_none (by omega)] at hnext
    cases hnext
  -- the state after hiding and trimming the selected layer
  have htrim : findLayer
      (updateLayer (updateLayer s selId setHiddenStateL) selId
        (fun l => { l with route := { l.route with segments := l.route.segments.take (j + 1) } }))
      selId =
      some { sel with
        state := LayerState.Hidden,
        route := { sel.route with segments := sel.route.segments.take (j + 1) } } := by
    rw [findLayer_updateLayer _ _ _ _ ?ht2, findLayer_updateLayer _ _ _ _ ?ht1, hfind]
    case ht1 => intro l; rfl
    case ht2 => intro l; rfl
    have hselid : sel.id = selId := by
      have h := List.find?_some hfind
      simpa using h
    simp [hselid, setHiddenStateL]
  have hlastp : getLastLatLngR
      { sel.route with segments := sel.route.segments.take (j + 1) } = some p := by
    unfold getLastLatLngR
    show ((sel.route.segments.take (j + 1)).getLast?).bind (fun sg => sg.latlngs.getLast?) =
      some p
    rw [getLast?_take_of_getElem? _ j seg hj0]
    simp only [Option.some_bind]
    exact hlast
  have hhead : (sel.route.segments.drop (j + 1)).head? = some nextSeg := by
    rw [List.head?_drop]
    exact hnext
  have hselid : sel.id = selId := by
    have h := List.find?_some hfind
    simpa using h
  -- run the split
  unfold splitSelectedRouteAt
  rw [hsel]
  simp only [Option.bind_eq_bind, Option.some_bind]
  rw [hfind]
  simp only [Option.bind_eq_bind, Option.some_bind, hidx, htrim, hlastp, hhead, Option.map_some,
    Option.map_some', updateLayer_resourcesSplit]
  rw [setData_single_import _ _ (by simp) rfl]
  obtain ⟨nm, hshape⟩ := importRouteStep_shape
    (updateLayer (updateLayer s selId setHiddenStateL) selId
      (fun l => { l with route := { l.route with segments := l.route.segments.take (j + 1) } }))
    { name := some (sel.route.properties.name ++ s.resourcesSplit),
      segments := { latlngs := [p, p], routePoint := p, routingType := nextSeg.routingType } ::
        sel.route.segments.drop (j + 1),
      markers := [] }
  rw [hshape]
  rw [selectRoute_selectedId]
  simp only [Option.bind_eq_bind, Option.some_bind, updateLayer_nextId]
  set trimmedLayer : RouteLayer :=
    ({ sel with
        state := LayerState.Hidden,
        route := { sel.route with segments := sel.route.segments.take (j + 1) } }) with htl
  set s3 : RoutesService := updateLayer (updateLayer s selId setHiddenStateL) selId
    (fun l => { l with route := { l.route with segments := l.route.segments.take (j + 1) } }) with hs3
  set newLayer : RouteLayer := createRouteLayerFromData s.nextId
    { name := some nm,
      segments := { latlngs := [p, p], routePoint := p, routingType := nextSeg.routingType } ::
        sel.route.segments.drop (j + 1),
      markers := [] } with hnl
  set s4 : RoutesService :=
    ({ s3 with routes := s3.routes ++ [newLayer], nextId := s.nextId + 1 }) with hs4
  refine ⟨_, rfl, setReadOnlyStateL trimmedLayer, setEditRouteStateL (mapAddLayerL newLayer),
    ?_, ?_, ?_, ?_, ?_, ?_, ?_⟩
  · -- the original layer after split
    rw [findLayer_updateLayer _ _ _ _ ?ha3]
    case ha3 => intro l; rfl
    rw [findLayer_selectRoute_some _ selId _ _ ?hsel4]
    case hsel4 => exact hsel
    rw [findLayer_updateLayer _ _ _ _ ?ha1]
    case ha1 => intro l; rfl
    have h4 : findLayer s4 selId = some trimmedLayer := by
      show (s3.routes ++ [newLayer]).find? (fun l => l.id == selId) = some trimmedLayer
      exact find?_append_left _ _ _ _ htrim
    rw [h4]
    have hne2 : selId ≠ s.nextId := by omega
    simp [hne2, hselid, setReadOnlyStateL]
  · -- the postfix layer is appended last
    have hroutes :
        (updateLayer (selectRoute (updateLayer s4 s.nextId mapAddLayerL) (some s.nextId))
          s.nextId setEditRouteStateL).routes =
        (((s3.routes ++ [newLayer]).map (fun l => if l.id == s.nextId then mapAddLayerL l else l)).map
          (fun l => if l.id == selId then setReadOnlyStateL l else l)).map
          (fun l => if l.id == s.nextId then setEditRouteStateL l else l) := by
      rw [updateLayer_routes, selectRoute_routes_some _ _ selId (by exact hsel), updateLayer_routes]
    rw [hroutes]
    rw [List.getLast?_map, List.getLast?_map, List.getLast?_map, List.getLast?_concat]
    have hne : s.nextId ≠ selId := by omega
    have hnid : newLayer.id = s.nextId := rfl
    simp [Option.map_some', hnid, hne, mapAddLayerL, setEditRouteStateL]
  · rfl
  · rfl
  · show (sel.route.segments.take (j + 1)).length +
      ({ latlngs := [p, p], routePoint := p, routingType := nextSeg.routingType } ::
        sel.route.segments.drop (j + 1)).length = sel.route.segments.length + 1
    rw [List.length_take, List.length_cons, List.length_drop]
    omega
  · exact hlastp
  · have hroutes :
        (updateLayer (selectRoute (updateLayer s4 s.nextId mapAddLayerL) (some s.nextId))
          s.nextId setEditRouteStateL).routes =
        (((s3.routes ++ [newLayer]).map (fun l => if l.id == s.nextId then mapAddLayerL l else l)).map
          (fun l => if l.id == selId then setReadOnlyStateL l else l)).map
          (fun l => if l.id == s.nextId then setEditRouteStateL l else l) := by
      rw [updateLayer_routes, selectRoute_routes_some _ _ selId (by exact hsel), updateLayer_routes]
    rw [hroutes]
    simp only [List.length_map, List.length_append, List.length_cons, List.length_nil]
    rw [hs3]
    simp only [updateLayer_routes, List.length_map]

/-- A two-segment selected route used for split scenarios. -/
def c4state : RoutesService :=
  { routes := [mkLayer 0 "A" [segA, segB] []], selectedId := some 0, nextId := 1,
    resourcesRoute := "Route", resourcesSplit := " Split", iconTypes := ["star"] }

/-- C4 counterexample: the claim admits any segment that occurs in the list,
but splitting at the LAST segment leaves an empty postfix list and the access
`postFixSegments[0].routingType` throws: the call produces no result state at
all, so the claimed segment-count identity fails there. -/
theorem claim_C4_counterexample :
    indexOfFrom segB (mkLayer 0 "A" [segA, segB] []).route.segments 0 = some 1 ∧
    splitSelectedRouteAt c4state segB = none := by
  refine ⟨by decide, by decide⟩

theorem claim_C4_witness :
    ∃ s', splitSelectedRouteAt c4state segA = some s' ∧
      ∃ orig post,
        findLayer s' 0 = some orig ∧
        s'.routes.getLast? = some post ∧
        orig.route.segments = (mkLayer 0 "A" [segA, segB] []).route.segments.take 1 ∧
        post.route.segments =
          { latlngs := [pt 10, pt 10], routePoint := pt 10, routingType := segB.routingType } ::
            (mkLayer 0 "A" [segA, segB] []).route.segments.drop 1 ∧
        orig.route.segments.length + post.route.segments.length =
          (mkLayer 0 "A" [segA, segB] []).route.segments.length + 1 ∧
        getLastLatLngR orig.route = some (pt 10) ∧
        s'.routes.length = c4state.routes.length + 1 :=
  claim_C4_amended c4state segA segB 0 0 (mkLayer 0 "A" [segA, segB] []) (pt 10)
    (by decide) (by decide) (by decide) (by decide) (by decide) (by decide)

/-! ## Claim C6: getClosestRoute -/

/-- One of the layer's two endpoints lies within the merge threshold of `p`
(false on a missing endpoint). -/
def endpointNear (dist : LatLng → LatLng → Int) (p : LatLng) (l : RouteLayer) : Bool :=
  (match getLastLatLngL l with
   | some q => decide (dist q p < mergeThreshold)
   | none => false) ||
  (match firstLatLngR l.route with
   | some q => decide (dist q p < mergeThreshold)
   | none => false)

/-- A layer the candidate loop examines: not the selected layer and with at
least one segment. -/
def isCandidateB (selId : Nat) (l : RouteLayer) : Bool :=
  !(l.id == selId) && !l.route.segments.isEmpty

theorem getLast?_some_mem {α : Type} (l : List α) (h : l ≠ []) :
    ∃ x, l.getLast? = some x ∧ x ∈ l :=
  ⟨l.getLast h, List.getLast?_eq_getLast_of_ne_nil h, List.getLast_mem h⟩

theorem head?_some_mem {α : Type} (l : List α) (h : l ≠ []) :
    ∃ x, l.head? = some x ∧ x ∈ l := by
  match l with
  | [] => exact absurd rfl h
  | a :: rest => exact ⟨a, rfl, List.mem_cons_self a rest⟩

theorem getClosestRouteAux_spec (dist : LatLng → LatLng → Int) (selId : Nat) (p : LatLng) :
    ∀ routes : List RouteLayer,
    (∀ l ∈ routes, ∀ sg ∈ l.route.segments, sg.latlngs ≠ []) →
    ∃ res, getClosestRouteAux dist selId p routes = some res ∧
      ((res = none ∧ ∀ l ∈ routes, isCandidateB selId l = true → endpointNear dist p l = false) ∨
       (∃ c pre post, res = some c ∧ routes = pre ++ c :: post ∧
         isCandidateB selId c = true ∧ endpointNear dist p c = true ∧
         ∀ l ∈ pre, isCandidateB selId l = true → endpointNear dist p l = false)) := by
  intro routes
  induction routes with
  | nil =>
    intro _
    exact ⟨none, rfl, Or.inl ⟨rfl, by simp⟩⟩
  | cons l rest ih =>
    intro hwf
    have hwfrest : ∀ l ∈ rest, ∀ sg ∈ l.route.segments, sg.latlngs ≠ [] := by
      intro l' hl' sg hsg
      exact hwf l' (List.mem_cons_of_mem _ hl') sg hsg
    by_cases hskip : (l.id == selId || decide (l.route.segments.length ≤ 0)) = true
    · -- skipped layer: not a candidate
      have hnotcand : isCandidateB selId l = false := by
        unfold isCandidateB
        rcases Bool.or_eq_true_iff.mp hskip with h | h
        · simp [h]
        · have : l.route.segments = [] := by
            have := of_decide_eq_true h
            exact List.length_eq_zero.mp (by omega)
          simp [this]
      obtain ⟨res, hres, hspec⟩ := ih hwfrest
      refine ⟨res, ?_, ?_⟩
      · rw [getClosestRouteAux, if_pos hskip]
        exact hres
      · rcases hspec with ⟨h0, hall⟩ | ⟨c, pre, post, hcs, hdecomp, hcand, hnear, hmin⟩
        · refine Or.inl ⟨h0, ?_⟩
          intro l' hl' hcand'
          rcases List.mem_cons.mp hl' with h | h
          · subst h; rw [hnotcand] at hcand'; cases hcand'
          · exact hall l' h hcand'
        · refine Or.inr ⟨c, l :: pre, post, hcs, by rw [hdecomp, List.cons_append], hcand, hnear, ?_⟩
          intro l' hl' hcand'
          rcases List.mem_cons.mp hl' with h | h
          · subst h; rw [hnotcand] at hcand'; cases hcand'
          · exact hmin l' h hcand'
    · -- examined candidate
      have hskipf : (l.id == selId || decide (l.route.segments.length ≤ 0)) = false := by
        simpa using hskip
      rw [Bool.or_eq_false_iff] at hskipf
      have hne : l.route.segments ≠ [] := by
        intro hcon
        rw [hcon] at hskipf
        simp at hskipf
      have hcand : isCandidateB selId l = true := by
        unfold isCandidateB
        rw [hskipf.1]
        simp [hne]
      obtain ⟨sg, hsg, hsgmem⟩ := getLast?_some_mem l.route.segments hne
      obtain ⟨q, hq, -⟩ := getLast?_some_mem sg.latlngs (hwf l (List.mem_cons_self _ _) sg hsgmem)
      have hlastl : getLastLatLngL l = some q := by
        unfold getLastLatLngL getLastLatLngR
        rw [hsg]
        simpa using hq
      obtain ⟨sg0, hsg0, hsg0mem⟩ := head?_some_mem l.route.segments hne
      obtain ⟨q2, hq2, -⟩ := head?_some_mem sg0.latlngs (hwf l (List.mem_cons_self _ _) sg0 hsg0mem)
      have hfirstl : firstLatLngR l.route = some q2 := by
        unfold firstLatLngR
        rw [hsg0]
        simpa using hq2
      have hnearval : endpointNear dist p l =
          (decide (dist q p < mergeThreshold) || decide (dist q2 p < mergeThreshold)) := by
        unfold endpointNear
        rw [hlastl, hfirstl]
      have hstep : getClosestRouteAux dist selId p (l :: rest) =
          (if dist q p < mergeThreshold then some (some l)
           else if dist q2 p < mergeThreshold then some (some l)
           else getClosestRouteAux dist selId p rest) := by
        rw [getClosestRouteAux, if_neg hskip]
        simp only [hlastl, hfirstl]
      by_cases hd1 : dist q p < mergeThreshold
      · refine ⟨some l, ?_, Or.inr ⟨l, [], rest, rfl, rfl, hcand, ?_, by simp⟩⟩
        · rw [hstep, if_pos hd1]
        · rw [hnearval]
          simp [hd1]
      · by_cases hd2 : dist q2 p < mergeThreshold
        · refine ⟨some l, ?_, Or.inr ⟨l, [], rest, rfl, rfl, hcand, ?_, by simp⟩⟩
          · rw [hstep, if_neg hd1, if_pos hd2]
          · rw [hnearval]
            simp [hd2]
        · obtain ⟨res, hres, hspec⟩ := ih hwfrest
          have hlfar : endpointNear dist p l = false := by
            rw [hnearval]
            simp [hd1, hd2]
          refine ⟨res, by rw [hstep, if_neg hd1, if_neg hd2]; exact hres, ?_⟩
          rcases hspec with ⟨h0, hall⟩ | ⟨c, pre, post, hcs, hdecomp, hcandc, hnear, hmin⟩
          · refine Or.inl ⟨h0, ?_⟩
            intro l' hl' hcand'
            rcases List.mem_cons.mp hl' with h | h
            · subst h; exact hlfar
            · exact hall l' h hcand'
          · refine Or.inr ⟨c, l :: pre, post, hcs, by rw [hdecomp, List.cons_append], hcandc, hnear, ?_⟩
            intro l' hl' hcand'
            rcases List.mem_cons.mp hl' with h | h
            · subst h; exact hlfar
            · exact hmin l' h hcand'

/-- C6: `getClosestRoute(isFirst)` probes with the selected route's first
point (`isFirst`) or last point (otherwise), skips the selected layer itself
and layers with no segments, and returns the first layer in collection
insertion order one of whose endpoints lies within the 50-meter threshold; it
returns `null` exactly when no candidate is near, and a returned layer is
never the selected one. -/
theorem claim_C6 (dist : LatLng → LatLng → Int) (s : RoutesService) (isFirst : Bool)
    (selId : Nat) (sel : RouteLayer) (p : LatLng)
    (hsel : s.selectedId = some selId)
    (hfind : findLayer s selId = some sel)
    (hp : selEndpoint isFirst sel.route = some p)
    (hwf : ∀ l ∈ s.routes, ∀ sg ∈ l.route.segments, sg.latlngs ≠ []) :
    ∃ res, getClosestRoute dist s isFirst = some res ∧
      (∀ c, res = some c → c.id ≠ selId ∧ c ∈ s.routes ∧
        isCandidateB selId c = true ∧ endpointNear dist p c = true ∧
        ∃ pre post, s.routes = pre ++ c :: post ∧
          ∀ l ∈ pre, isCandidateB selId l = true → endpointNear dist p l = false) ∧
      (res = none ↔ ∀ l ∈ s.routes, isCandidateB selId l = true → endpointNear dist p l = false) := by
  obtain ⟨res, hres, hspec⟩ := getClosestRouteAux_spec dist selId p s.routes hwf
  have hrun : getClosestRoute dist s isFirst = some res := by
    unfold getClosestRoute
    rw [hsel]
    simp only [Option.bind_eq_bind, Option.some_bind]
    rw [hfind]
    simp only [Option.bind_eq_bind, Option.some_bind]
    rw [hp]
    simp only [Option.bind_eq_bind, Option.some_bind]
    exact hres
  refine ⟨res, hrun, ?_, ?_⟩
  · intro c hc
    rcases hspec with ⟨h0, -⟩ | ⟨c', pre, post, hcs, hdecomp, hcand, hnear, hmin⟩
    · rw [h0] at hc; cases hc
    · rw [hcs] at hc
      have hcc : c' = c := by injection hc
      subst hcc
      have hid : c'.id ≠ selId := by
        unfold isCandidateB at hcand
        rw [Bool.and_eq_true] at hcand
        have := hcand.1
        simp at this
        exact this
      refine ⟨hid, ?_, hcand, hnear, pre, post, hdecomp, hmin⟩
      rw [hdecomp]
      exact List.mem_append_right pre (List.mem_cons_self _ _)
  · constructor
    · intro h0
      rcases hspec with ⟨-, hall⟩ | ⟨c', pre, post, hcs, -, -, -, -⟩
      · exact hall
      · rw [h0] at hcs; cases hcs
    · intro hall
      rcases hspec with ⟨h0, -⟩ | ⟨c', pre, post, hcs, hdecomp, hcand, hnear, -⟩
      · exact h0
      · have hmem : c' ∈ s.routes := by
          rw [hdecomp]
          exact List.mem_append_right pre (List.mem_cons_self _ _)
        have := hall c' hmem hcand
        rw [hnear] at this
        cases this

/-- Collection [A, B] with A selected, whose last point lies within 50 of B's
start but far from B's end. -/
def c6state : RoutesService :=
  { routes := [mkLayer 0 "A" [segA] [], mkLayer 1 "B" [segB] []], selectedId := some 0, nextId := 2,
    resourcesRoute := "Route", resourcesSplit := " Split", iconTypes := ["star"] }

theorem claim_C6_witness :
    ∃ res, getClosestRoute taxiDist c6state false = some res ∧
      (∀ c, res = some c → c.id ≠ 0 ∧ c ∈ c6state.routes ∧
        isCandidateB 0 c = true ∧ endpointNear taxiDist (pt 10) c = true ∧
        ∃ pre post, c6state.routes = pre ++ c :: post ∧
          ∀ l ∈ pre, isCandidateB 0 l = true → endpointNear taxiDist (pt 10) l = false) ∧
      (res = none ↔ ∀ l ∈ c6state.routes, isCandidateB 0 l = true →
        endpointNear taxiDist (pt 10) l = false) :=
  claim_C6 taxiDist c6state false 0 (mkLayer 0 "A" [segA] []) (pt 10)
    (by decide) (by decide) (by decide) (by decide)

/-! ## Claim C2: the two-route merge scenario -/

theorem claim_C2_amended (dist : LatLng → LatLng → Int) (A B : RouteLayer)
    (nid : Nat) (resR resS : String) (icons : List String)
    (s1 b0 b1 : SegmentData) (pA pB qB : LatLng)
    (hAseg : A.route.segments = [s1])
    (hBseg : B.route.segments = [b0, b1])
    (hid : A.id ≠ B.id)
    (hname : A.route.properties.name ≠ B.route.properties.name)
    (hpA : s1.latlngs.getLast? = some pA)
    (hqB : b0.latlngs.head? = some qB)
    (hpB : b1.latlngs.getLast? = some pB)
    (hfar : ¬ dist pB pA < mergeThreshold)
    (hnear : dist qB pA < mergeThreshold) :
    mergeSelectedRouteToClosest dist
      { routes := [A, B], selectedId := some A.id, nextId := nid,
        resourcesRoute := resR, resourcesSplit := resS, iconTypes := icons } false =
    some
      { routes :=
          [{ A with
              state := LayerState.Edit, editMode := EditMode.Route,
              route :=
                { A.route with
                    segments := [s1, { b1 with latlngs := pA :: b1.latlngs }],
                    markers := A.route.markers ++ B.route.markers } }],
        selectedId := some A.id, nextId := nid,
        resourcesRoute := resR, resourcesSplit := resS, iconTypes := icons } := by
  set s : RoutesService :=
    ({ routes := [A, B], selectedId := some A.id, nextId := nid,
       resourcesRoute := resR, resourcesSplit := resS, iconTypes := icons }) with hs
  have hBA : (B.id == A.id) = false := by simp [Ne.symm hid]
  have hAB : (A.id == B.id) = false := by simp [hid]
  have hnmB : (A.route.properties.name == B.route.properties.name) = false := by simp [hname]
  have hlastA : getLastLatLngR A.route = some pA := by
    unfold getLastLatLngR
    rw [hAseg]
    simpa using hpA
  have hlastB : getLastLatLngL B = some pB := by
    unfold getLastLatLngL getLastLatLngR
    rw [hBseg]
    simpa using hpB
  have hfirstB : firstLatLngR B.route = some qB := by
    unfold firstLatLngR
    rw [hBseg]
    simpa using hqB
  have hfindA : findLayer s A.id = some A := by
    unfold findLayer
    simp [List.find?]
  have hgcr : getClosestRoute dist s false = some (some B) := by
    unfold getClosestRoute
    show (Option.bind (some A.id) _) = _
    simp only [Option.some_bind]
    rw [hfindA]
    simp only [Option.bind_eq_bind, Option.some_bind]
    have hpend : selEndpoint false A.route = some pA := by
      unfold selEndpoint
      simpa using hlastA
    rw [hpend]
    simp only [Option.bind_eq_bind, Option.some_bind]
    show getClosestRouteAux dist A.id pA [A, B] = some (some B)
    rw [getClosestRouteAux, if_pos (by simp)]
    rw [getClosestRouteAux, if_neg (by simp [hBA, hBseg])]
    simp only [hlastB, hfirstB]
    rw [if_neg hfar, if_pos hnear]
  unfold mergeSelectedRouteToClosest
  rw [hgcr]
  simp only [Option.bind_eq_bind, Option.some_bind]
  have hidBA : B.id ≠ A.id := Ne.symm hid
  simp [hs, mergeTailLast, mergeTailFirst, concatMarkers, updateLayer, removeRoute, getRouteByName, findLayer,
    List.find?, removeFirstById,
    setHiddenStateL, dropFirstSegment, prependToFirstSegLatlngs, appendSegments,
    setEditRouteStateL, selEndpoint, getLastLatLngR, getLastLatLngL, firstLatLngR,
    hAseg, hBseg, hAB, hBA, hnmB, hfar, hpA, hpB, hqB, hid, hidBA, hname]

/-- C2 counterexample: in the claim's exact scenario — A = [segA] selected,
B = [segB] a single segment whose start is within 50 of A's end — the merge
finds B, then `closestRoute.route.segments.splice(0, 1)` empties B's segment
list and `closestRoute.route.segments[0].latlngs` throws: there is no result
state, let alone the claimed one. -/
theorem claim_C2_counterexample :
    getClosestRoute taxiDist c6state false = some (some (mkLayer 1 "B" [segB] [])) ∧
    mergeSelectedRouteToClosest taxiDist c6state false = none := by
  refine ⟨by decide, by decide⟩

theorem claim_C2_witness :
    mergeSelectedRouteToClosest taxiDist
      { routes := [mkLayer 0 "A" [segA] [], mkLayer 1 "B" [segB, segC] []],
        selectedId := some 0, nextId := 2,
        resourcesRoute := "Route", resourcesSplit := " Split", iconTypes := ["star"] } false =
    some
      { routes :=
          [{ mkLayer 0 "A" [segA] [] with
              state := LayerState.Edit, editMode := EditMode.Route,
              route :=
                { (mkLayer 0 "A" [segA] []).route with
                    segments := [segA, { segC with latlngs := pt 10 :: segC.latlngs }],
                    markers := [] } }],
        selectedId := some 0, nextId := 2,
        resourcesRoute := "Route", resourcesSplit := " Split", iconTypes := ["star"] } :=
  claim_C2_amended taxiDist (mkLayer 0 "A" [segA] []) (mkLayer 1 "B" [segB, segC] []) 2
    "Route" " Split" ["star"] segA segB segC (pt 10) (pt 3000) (pt 20)
    (by decide) (by decide) (by decide) (by decide) (by decide) (by decide) (by decide)
    (by decide) (by decide)

/-! ## Claim C5: merge removes the absorbed name and adds the marker counts -/

theorem count_name_le_one (routes : List RouteLayer)
    (hnames : (routes.map (fun l => l.route.properties.name)).Nodup) (nm : String) :
    (routes.filter (fun l => l.route.properties.name == nm)).length ≤ 1 := by
  induction routes with
  | nil => simp
  | cons a rest ih =>
    rw [List.map_cons, List.nodup_cons] at hnames
    by_cases ha : (a.route.properties.name == nm) = true
    · have hrest : rest.filter (fun l => l.route.properties.name == nm) = [] := by
        apply List.filter_eq_nil_iff.mpr
        intro y hy hyname
        apply hnames.1
        rw [beq_iff_eq] at ha hyname
        rw [ha, ← hyname]
        exact List.mem_map_of_mem _ hy
      rw [List.filter_cons, if_pos ha, hrest]
      simp
    · rw [List.filter_cons, if_neg ha]
      exact ih hnames.2

theorem find?_name_unique (routes : List RouteLayer) (c : RouteLayer)
    (hnames : (routes.map (fun l => l.route.properties.name)).Nodup)
    (hmem : c ∈ routes) :
    routes.find? (fun l => l.route.properties.name == c.route.properties.name) = some c := by
  induction routes with
  | nil => cases hmem
  | cons a rest ih =>
    rw [List.map_cons, List.nodup_cons] at hnames
    rcases List.mem_cons.mp hmem with h | h
    · subst h
      simp [List.find?]
    · have hdiff : (a.route.properties.name == c.route.properties.name) = false := by
        rw [beq_eq_false_iff_ne]
        intro hcon
        exact hnames.1 (hcon ▸ List.mem_map_of_mem _ h)
      simp only [List.find?, hdiff]
      exact ih hnames.2 h

theorem find?_removeFirstById (i j : Nat) (hne : j ≠ i) (x : RouteLayer) :
    ∀ l : List RouteLayer, l.find? (fun l => l.id == j) = some x →
    (removeFirstById l i).find? (fun l => l.id == j) = some x := by
  intro l
  induction l with
  | nil => intro h; simp at h
  | cons a rest ih =>
    intro h
    by_cases hai : (a.id == i) = true
    · rw [removeFirstById, if_pos hai]
      have haj : (a.id == j) = false := by
        rw [beq_eq_false_iff_ne]
        rw [beq_iff_eq] at hai
        omega
      rw [List.find?] at h
      rw [haj] at h
      exact h
    · rw [removeFirstById, if_neg hai]
      rw [List.find?] at h ⊢
      cases haj : (a.id == j) with
      | true => rw [haj] at h; simpa using h
      | false =>
        rw [haj] at h
        simpa using ih h

theorem getClosestRouteAux_memOf (dist : LatLng → LatLng → Int) (selId : Nat) (p : LatLng) :
    ∀ (routes : List RouteLayer) (c : RouteLayer),
    getClosestRouteAux dist selId p routes = some (some c) →
      c ∈ routes ∧ (c.id == selId) = false := by
  intro routes
  induction routes with
  | nil =>
    intro c h
    simp [getClosestRouteAux] at h
  | cons l rest ih =>
    intro c h
    rw [getClosestRouteAux] at h
    by_cases hskip : (l.id == selId || decide (l.route.segments.length ≤ 0)) = true
    · rw [if_pos hskip] at h
      obtain ⟨hmem, hbeq⟩ := ih c h
      exact ⟨List.mem_cons_of_mem _ hmem, hbeq⟩
    · rw [if_neg hskip] at h
      have hskipf : (l.id == selId) = false := by
        have h2 : (l.id == selId || decide (l.route.segments.length ≤ 0)) = false := by
          cases hb : (l.id == selId || decide (l.route.segments.length ≤ 0)) with
          | false => rfl
          | true => exact absurd hb hskip
        exact (Bool.or_eq_false_iff.mp h2).1
      cases hgl : getLastLatLngL l with
      | none => rw [hgl] at h; cases h
      | some q =>
        simp only [hgl] at h
        by_cases hd1 : dist q p < mergeThreshold
        · rw [if_pos hd1] at h
          have : l = c := by
            injection h with h
            injection h
          subst this
          exact ⟨List.mem_cons_self _ _, hskipf⟩
        · rw [if_neg hd1] at h
          cases hfl : firstLatLngR l.route with
          | none => rw [hfl] at h; cases h
          | some q2 =>
            simp only [hfl] at h
            by_cases hd2 : dist q2 p < mergeThreshold
            · rw [if_pos hd2] at h
              have : l = c := by
                injection h with h
                injection h
              subst this
              exact ⟨List.mem_cons_self _ _, hskipf⟩
            · rw [if_neg hd2] at h
              obtain ⟨hmem, hbeq⟩ := ih c h
              exact ⟨List.mem_cons_of_mem _ hmem, hbeq⟩

theorem names_false_of_routeNames_eq (t1 t2 : RoutesService) (nm : String)
    (heq : routeNames t1 = routeNames t2)
    (h : ∀ l ∈ t2.routes, (l.route.properties.name == nm) = false) :
    ∀ l ∈ t1.routes, (l.route.properties.name == nm) = false := by
  intro l hl
  have hmem : l.route.properties.name ∈ routeNames t2 := by
    rw [← heq]
    exact List.mem_map_of_mem _ hl
  obtain ⟨l2, hl2, hname⟩ := List.mem_map.mp hmem
  rw [← hname]
  exact h l2 hl2

theorem prependToFirstSegLatlngs_id (p : LatLng) (l : RouteLayer) :
    (prependToFirstSegLatlngs p l).id = l.id := by
  unfold prependToFirstSegLatlngs
  cases hseg : l.route.segments <;> rfl

theorem prependToFirstSegLatlngs_name (p : LatLng) (l : RouteLayer) :
    (prependToFirstSegLatlngs p l).route.properties.name = l.route.properties.name := by
  unfold prependToFirstSegLatlngs
  cases hseg : l.route.segments <;> rfl

theorem prependToFirstSegLatlngs_markers (p : LatLng) (l : RouteLayer) :
    (prependToFirstSegLatlngs p l).route.markers = l.route.markers := by
  unfold prependToFirstSegLatlngs
  cases hseg : l.route.segments <;> rfl

theorem appendSegments_id (segs : List SegmentData) (l : RouteLayer) :
    (appendSegments segs l).id = l.id := rfl

theorem prependSegments_id (segs : List SegmentData) (l : RouteLayer) :
    (prependSegments segs l).id = l.id := rfl

theorem mergeTailLast_spec (selId : Nat) (t : RoutesService) (cc : RouteLayer)
    (s' : RoutesService) (selH : RouteLayer) (nm : String)
    (hfl : findLayer t selId = some selH)
    (hccne : (selH.id == cc.id) = false)
    (hnm : ∀ l ∈ t.routes, (l.route.properties.name == nm) = false)
    (hm : mergeTailLast selId t cc = some s') :
    (∀ l ∈ s'.routes, (l.route.properties.name == nm) = false) ∧
    ∃ sel', findLayer s' selId = some sel' ∧ sel'.route.markers = selH.route.markers := by
  have hselid : (selH.id == selId) = true := by
    have := List.find?_some hfl
    exact this
  unfold mergeTailLast at hm
  simp only [Option.bind_eq_bind] at hm
  cases hhd : (dropFirstSegment cc).route.segments.head? with
  | none =>
    simp only [hhd, Option.none_bind] at hm
    exact absurd hm (by simp)
  | some sg0 =>
    simp only [hhd, Option.some_bind] at hm
    have hfl2 : findLayer (updateLayer t cc.id dropFirstSegment) selId = some selH := by
      rw [findLayer_updateLayer _ _ _ _ ?hdid, hfl]
      case hdid => intro l; rfl
      simp only [Option.map_some']
      rw [if_neg (by simpa using hccne)]
    rw [hfl2] at hm
    simp only [Option.some_bind] at hm
    cases hep : getLastLatLngR selH.route with
    | none =>
      simp only [hep, Option.none_bind] at hm
      exact absurd hm (by simp)
    | some e =>
      simp only [hep, Option.some_bind] at hm
      set mid : RoutesService := updateLayer
          (updateLayer (updateLayer t cc.id dropFirstSegment)
            (prependToFirstSegLatlngs e (dropFirstSegment cc)).id (prependToFirstSegLatlngs e))
          selId (appendSegments (prependToFirstSegLatlngs e (dropFirstSegment cc)).route.segments)
        with hmid
      have hs' : updateLayer mid selId setEditRouteStateL = s' := by
        injection hm
      subst hs'
      constructor
      · apply names_false_of_routeNames_eq _ t nm ?_ hnm
        rw [routeNames_updateLayer _ _ _ ?f4, hmid,
          routeNames_updateLayer _ _ _ ?f3, routeNames_updateLayer _ _ _ ?f2,
          routeNames_updateLayer _ _ _ ?f1]
        case f1 => intro l; rfl
        case f2 => intro l; exact prependToFirstSegLatlngs_name e l
        case f3 => intro l; rfl
        case f4 => intro l; rfl
      · refine ⟨setEditRouteStateL (appendSegments
          (prependToFirstSegLatlngs e (dropFirstSegment cc)).route.segments selH), ?_, ?_⟩
        · rw [findLayer_updateLayer _ _ _ _ ?g4]
          case g4 => intro l; rfl
          rw [hmid, findLayer_updateLayer _ _ _ _ ?g3]
          case g3 => intro l; rfl
          rw [findLayer_updateLayer _ _ _ _ ?g2]
          case g2 => intro l; exact prependToFirstSegLatlngs_id e l
          rw [hfl2]
          have hccne2 : (selH.id == (prependToFirstSegLatlngs e (dropFirstSegment cc)).id) = false := by
            rw [prependToFirstSegLatlngs_id]
            exact hccne
          have hne : ¬ ((selH.id == (prependToFirstSegLatlngs e (dropFirstSegment cc)).id) = true) := by
            simp [hccne2]
          simp only [Option.map_some']
          rw [if_neg hne, if_pos hselid, appendSegments_id, if_pos hselid]
        · rfl

theorem mergeTailFirst_spec (selId : Nat) (t : RoutesService) (cc : RouteLayer)
    (s' : RoutesService) (selH : RouteLayer) (nm : String)
    (hfl : findLayer t selId = some selH)
    (hnm : ∀ l ∈ t.routes, (l.route.properties.name == nm) = false)
    (hm : mergeTailFirst selId t cc = some s') :
    (∀ l ∈ s'.routes, (l.route.properties.name == nm) = false) ∧
    ∃ sel', findLayer s' selId = some sel' ∧ sel'.route.markers = selH.route.markers := by
  have hselid : (selH.id == selId) = true := by
    have := List.find?_some hfl
    exact this
  unfold mergeTailFirst at hm
  simp only [Option.bind_eq_bind] at hm
  have hfl1 : findLayer (updateLayer t selId dropFirstSegment) selId =
      some (dropFirstSegment selH) := by
    rw [findLayer_updateLayer _ _ _ _ ?hdid, hfl]
    case hdid => intro l; rfl
    simp only [Option.map_some']
    rw [if_pos hselid]
  rw [hfl1] at hm
  simp only [Option.some_bind] at hm
  cases hhd : (dropFirstSegment selH).route.segments.head? with
  | none =>
    simp only [hhd, Option.none_bind] at hm
    exact absurd hm (by simp)
  | some sg0 =>
    simp only [hhd, Option.some_bind] at hm
    cases hep : getLastLatLngL cc with
    | none =>
      simp only [hep, Option.none_bind] at hm
      exact absurd hm (by simp)
    | some e =>
      simp only [hep, Option.some_bind] at hm
      set mid : RoutesService := updateLayer
          (updateLayer (updateLayer t selId dropFirstSegment) selId (prependToFirstSegLatlngs e))
          selId (prependSegments cc.route.segments)
        with hmid
      have hs' : updateLayer mid selId setEditRouteStateL = s' := by
        injection hm
      subst hs'
      have hid1 : ((dropFirstSegment selH).id == selId) = true := hselid
      have hid2 : ((prependToFirstSegLatlngs e (dropFirstSegment selH)).id == selId) = true := by
        rw [show (prependToFirstSegLatlngs e (dropFirstSegment selH)).id = selH.id from
          prependToFirstSegLatlngs_id e (dropFirstSegment selH)]
        exact hselid
      constructor
      · apply names_false_of_routeNames_eq _ t nm ?_ hnm
        rw [routeNames_updateLayer _ _ _ ?f4, hmid,
          routeNames_updateLayer _ _ _ ?f3, routeNames_updateLayer _ _ _ ?f2,
          routeNames_updateLayer _ _ _ ?f1]
        case f1 => intro l; rfl
        case f2 => intro l; exact prependToFirstSegLatlngs_name e l
        case f3 => intro l; rfl
        case f4 => intro l; rfl
      · refine ⟨setEditRouteStateL (prependSegments cc.route.segments
          (prependToFirstSegLatlngs e (dropFirstSegment selH))), ?_, ?_⟩
        · rw [findLayer_updateLayer _ _ _ _ ?g4]
          case g4 => intro l; rfl
          rw [hmid, findLayer_updateLayer _ _ _ _ ?g3]
          case g3 => intro l; rfl
          rw [findLayer_updateLayer _ _ _ _ ?g2]
          case g2 => intro l; exact prependToFirstSegLatlngs_id e l
          rw [hfl1]
          simp only [Option.map_some']
          rw [if_pos hid1, if_pos hid2, prependSegments_id, if_pos hid2]
        · rw [show (setEditRouteStateL (prependSegments cc.route.segments
            (prependToFirstSegLatlngs e (dropFirstSegment selH)))).route.markers =
            (prependToFirstSegLatlngs e (dropFirstSegment selH)).route.markers from rfl]
          rw [prependToFirstSegLatlngs_markers]
          rfl

theorem concatMarkers_id (ms : List Marker) (l : RouteLayer) :
    (concatMarkers ms l).id = l.id := rfl

theorem concatMarkers_name (ms : List Marker) (l : RouteLayer) :
    (concatMarkers ms l).route.properties.name = l.route.properties.name := rfl

theorem reverseLayer_id (l : RouteLayer) : (reverseLayer l).id = l.id := rfl

theorem reverseLayer_name (l : RouteLayer) :
    (reverseLayer l).route.properties.name = l.route.properties.name := rfl

theorem routeIds_updateLayer (s : RoutesService) (i : Nat) (f : RouteLayer → RouteLayer)
    (hf : ∀ l, (f l).id = l.id) :
    (updateLayer s i f).routes.map (fun l => l.id) = s.routes.map (fun l => l.id) := by
  unfold updateLayer
  simp only [List.map_map]
  apply List.map_congr_left
  intro l _
  by_cases h : l.id = i <;> simp [h, hf]

theorem mem_updateLayer_of_ne (s : RoutesService) (i : Nat) (f : RouteLayer → RouteLayer)
    (c : RouteLayer) (hmem : c ∈ s.routes) (hne : (c.id == i) = false) :
    c ∈ (updateLayer s i f).routes := by
  unfold updateLayer
  have hmap := List.mem_map_of_mem (fun l : RouteLayer => if l.id == i then f l else l) hmem
  simpa [hne] using hmap

/-- With pairwise-distinct ids and names, splicing the layer with `c.id` out of
the collection leaves no layer bearing `c`'s name. -/
theorem removeFirstById_no_name (c : RouteLayer) :
    ∀ (L : List RouteLayer),
    (L.map (fun l => l.id)).Nodup →
    (L.map (fun l => l.route.properties.name)).Nodup →
    c ∈ L →
    ∀ l ∈ removeFirstById L c.id,
      (l.route.properties.name == c.route.properties.name) = false := by
  intro L
  induction L with
  | nil => intro _ _ hmem; cases hmem
  | cons a rest ih =>
    intro hids hnames hmem
    rw [List.map_cons, List.nodup_cons] at hids hnames
    by_cases hai : (a.id == c.id) = true
    · rw [removeFirstById, if_pos hai]
      rcases List.mem_cons.mp hmem with h | h
      · intro l hl
        rw [beq_eq_false_iff_ne]
        intro hcon
        apply hnames.1
        rw [h] at hcon
        rw [← hcon]
        exact List.mem_map_of_mem _ hl
      · exfalso
        apply hids.1
        rw [beq_iff_eq] at hai
        rw [hai]
        exact List.mem_map_of_mem _ h
    · rw [removeFirstById, if_neg hai]
      have hcrest : c ∈ rest := by
        rcases List.mem_cons.mp hmem with h | h
        · exfalso
          apply hai
          rw [h]
          simp
        · exact h
      intro l hl
      rcases List.mem_cons.mp hl with h | h
      · rw [h, beq_eq_false_iff_ne]
        intro hcon
        apply hnames.1
        rw [hcon]
        exact List.mem_map_of_mem _ hcrest
      · exact ih hids.2 hnames.2 hcrest l h

/-- C5 (amended): under pairwise-distinct route names and ids, whenever
`getClosestRoute(isFirst)` returns a route and `mergeSelectedRouteToClosest`
completes, the absorbed route's name no longer appears in the collection and
the selected route's marker count is the sum of the two pre-merge marker
counts. -/
theorem claim_C5_amended (dist : LatLng → LatLng → Int) (s : RoutesService) (isFirst : Bool)
    (selId : Nat) (sel c : RouteLayer) (s' : RoutesService)
    (hnames : namesNodup s)
    (hids : (s.routes.map (fun l => l.id)).Nodup)
    (hsel : s.selectedId = some selId)
    (hfind : findLayer s selId = some sel)
    (hc : getClosestRoute dist s isFirst = some (some c))
    (hm : mergeSelectedRouteToClosest dist s isFirst = some s') :
    (∀ l ∈ s'.routes, (l.route.properties.name == c.route.properties.name) = false) ∧
    ∃ sel', findLayer s' selId = some sel' ∧
      sel'.route.markers.length = sel.route.markers.length + c.route.markers.length := by
  unfold namesNodup at hnames
  have hcmem0 : c ∈ s.routes ∧ (c.id == selId) = false := by
    unfold getClosestRoute at hc
    rw [hsel] at hc
    simp only [Option.bind_eq_bind, Option.some_bind] at hc
    rw [hfind] at hc
    simp only [Option.some_bind] at hc
    cases hp : selEndpoint isFirst sel.route with
    | none =>
      simp only [hp, Option.none_bind] at hc
      exact absurd hc (by simp)
    | some p =>
      simp only [hp, Option.some_bind] at hc
      exact getClosestRouteAux_memOf dist selId p s.routes c hc
  obtain ⟨hcmem, hcid⟩ := hcmem0
  have hcidne : c.id ≠ selId := by simpa using hcid
  have hne' : selId ≠ c.id := fun h => hcidne h.symm
  have hselidT : (sel.id == selId) = true := by
    have := List.find?_some hfind
    exact this
  have hselid_eq : sel.id = selId := by simpa using hselidT
  unfold mergeSelectedRouteToClosest at hm
  rw [hc] at hm
  simp only [Option.bind_eq_bind, Option.some_bind] at hm
  rw [hsel] at hm
  simp only [Option.some_bind] at hm
  set s1 : RoutesService := updateLayer s selId setHiddenStateL with hs1
  have hnames1 : (s1.routes.map (fun l => l.route.properties.name)).Nodup := by
    have h1 : routeNames s1 = routeNames s := routeNames_updateLayer s selId _ (fun l => rfl)
    have h2 : (routeNames s1).Nodup := by
      rw [h1]
      exact hnames
    exact h2
  have hids1 : (s1.routes.map (fun l => l.id)).Nodup := by
    have h1 : (updateLayer s selId setHiddenStateL).routes.map (fun l => l.id) =
        s.routes.map (fun l => l.id) := routeIds_updateLayer s selId _ (fun l => rfl)
    rw [hs1, h1]
    exact hids
  have hcmem1 : c ∈ s1.routes := by
    rw [hs1]
    exact mem_updateLayer_of_ne s selId _ c hcmem hcid
  have hfname : getRouteByName s1 c.route.properties.name = some c := by
    unfold getRouteByName
    exact find?_name_unique s1.routes c hnames1 hcmem1
  have hsel1 : s1.selectedId = some selId := by
    rw [hs1, updateLayer_selectedId]
    exact hsel
  have hnotsel : (s1.selectedId == some c.id) = false := by
    rw [hsel1]
    simpa using hne'
  have hrem : removeRoute s1 c.route.properties.name =
      { s1 with routes := removeFirstById s1.routes c.id } := by
    unfold removeRoute
    simp only [hfname]
    rw [if_neg (by simp [hnotsel])]
  rw [hrem] at hm
  set s2 : RoutesService := { s1 with routes := removeFirstById s1.routes c.id } with hs2
  have hsel2 : s2.selectedId = some selId := hsel1
  rw [hsel2] at hm
  simp only [Option.some_bind] at hm
  have hfind1 : findLayer s1 selId = some (setHiddenStateL sel) := by
    have h1 : findLayer (updateLayer s selId setHiddenStateL) selId =
        (findLayer s selId).map (fun l => if l.id == selId then setHiddenStateL l else l) :=
      findLayer_updateLayer s selId selId _ (fun l => rfl)
    rw [hs1, h1, hfind]
    simp only [Option.map_some']
    rw [if_pos hselidT]
  have hfind2 : findLayer s2 selId = some (setHiddenStateL sel) := by
    show (removeFirstById s1.routes c.id).find? (fun l => l.id == selId) = _
    exact find?_removeFirstById c.id selId hne' (setHiddenStateL sel) s1.routes hfind1
  set selM : RouteLayer := concatMarkers c.route.markers (setHiddenStateL sel) with hselM
  set s3 : RoutesService := updateLayer s2 selId (concatMarkers c.route.markers) with hs3
  have hfind3 : findLayer s3 selId = some selM := by
    have h1 : findLayer (updateLayer s2 selId (concatMarkers c.route.markers)) selId =
        (findLayer s2 selId).map
          (fun l => if l.id == selId then concatMarkers c.route.markers l else l) :=
      findLayer_updateLayer s2 selId selId _ (fun l => rfl)
    rw [hs3, h1, hfind2]
    simp only [Option.map_some']
    have hselidT2 : ((setHiddenStateL sel).id == selId) = true := hselidT
    rw [if_pos hselidT2]
  rw [hfind3] at hm
  simp only [Option.some_bind] at hm
  have hnm2 : ∀ l ∈ removeFirstById s1.routes c.id,
      (l.route.properties.name == c.route.properties.name) = false :=
    removeFirstById_no_name c s1.routes hids1 hnames1 hcmem1
  have hnm3 : ∀ l ∈ s3.routes,
      (l.route.properties.name == c.route.properties.name) = false := by
    apply names_false_of_routeNames_eq _ s2 _ ?_ hnm2
    rw [hs3]
    exact routeNames_updateLayer _ _ _ (fun l => rfl)
  have hselc : (selM.id == c.id) = false := by
    have hid0 : selM.id = sel.id := rfl
    rw [beq_eq_false_iff_ne, hid0, hselid_eq]
    exact hne'
  have hfindRev : findLayer (updateLayer s3 c.id reverseLayer) selId = some selM := by
    have h1 : findLayer (updateLayer s3 c.id reverseLayer) selId =
        (findLayer s3 selId).map (fun l => if l.id == c.id then reverseLayer l else l) :=
      findLayer_updateLayer s3 selId c.id _ (fun l => rfl)
    rw [h1, hfind3]
    simp only [Option.map_some']
    rw [if_neg (by simp [hselc])]
  have hnmRev : ∀ l ∈ (updateLayer s3 c.id reverseLayer).routes,
      (l.route.properties.name == c.route.properties.name) = false := by
    apply names_false_of_routeNames_eq _ s3 _ ?_ hnm3
    exact routeNames_updateLayer _ _ _ (fun l => rfl)
  have hmark : selM.route.markers.length =
      sel.route.markers.length + c.route.markers.length := by
    rw [hselM]
    simp [concatMarkers, setHiddenStateL]
  cases hep : selEndpoint isFirst selM.route with
  | none =>
    simp only [hep, Option.none_bind] at hm
    exact absurd hm (by simp)
  | some p2 =>
    simp only [hep, Option.some_bind] at hm
    rcases Bool.eq_false_or_eq_true isFirst with hif | hif
    · rw [hif] at hm
      rw [if_pos (Eq.refl true)] at hm
      cases hq : firstLatLngR c.route with
      | none =>
        simp only [hq, Option.none_bind] at hm
        exact absurd hm (by simp)
      | some q =>
        simp only [hq, Option.some_bind] at hm
        by_cases hrev : dist q p2 < mergeThreshold
        · rw [if_pos hrev] at hm
          obtain ⟨h1, sel', h2, h3⟩ := mergeTailFirst_spec selId
            (updateLayer s3 c.id reverseLayer) (reverseLayer c) s' selM
            c.route.properties.name hfindRev hnmRev hm
          refine ⟨h1, sel', h2, ?_⟩
          rw [h3]
          exact hmark
        · rw [if_neg hrev] at hm
          obtain ⟨h1, sel', h2, h3⟩ := mergeTailFirst_spec selId s3 c s' selM
            c.route.properties.name hfind3 hnm3 hm
          refine ⟨h1, sel', h2, ?_⟩
          rw [h3]
          exact hmark
    · rw [hif] at hm
      rw [if_neg (by simp)] at hm
      cases hq : getLastLatLngL c with
      | none =>
        simp only [hq, Option.none_bind] at hm
        exact absurd hm (by simp)
      | some q =>
        simp only [hq, Option.some_bind] at hm
        by_cases hrev : dist q p2 < mergeThreshold
        · rw [if_pos hrev] at hm
          obtain ⟨h1, sel', h2, h3⟩ := mergeTailLast_spec selId
            (updateLayer s3 c.id reverseLayer) (reverseLayer c) s' selM
            c.route.properties.name hfindRev hselc hnmRev hm
          refine ⟨h1, sel', h2, ?_⟩
          rw [h3]
          exact hmark
        · rw [if_neg hrev] at hm
          obtain ⟨h1, sel', h2, h3⟩ := mergeTailLast_spec selId s3 c s' selM
            c.route.properties.name hfind3 hselc hnm3 hm
          refine ⟨h1, sel', h2, ?_⟩
          rw [h3]
          exact hmark


/-- C5 witness fixtures: a selected single-segment route "S" and a
two-segment route "C" whose start lies within the merge threshold of "S"'s
end, with one marker to make the marker-count sum visible. -/
def c5selLayer : RouteLayer := mkLayer 0 "S" [segA] []

def c5closeLayer : RouteLayer := mkLayer 1 "C" [segB, segC] [markerM]

def c5wit : RoutesService :=
  { routes := [c5selLayer, c5closeLayer], selectedId := some 0, nextId := 2,
    resourcesRoute := "Route", resourcesSplit := " Split", iconTypes := ["star"] }

/-- The merged state of the C5 witness scenario. -/
def c5res : RoutesService :=
  (mergeSelectedRouteToClosest taxiDist c5wit false).getD c5wit

/-- C5 counterexample fixtures: two routes named "N" — a segmentless decoy
first and the mergeable namesake second — plus the selected route "S". -/
def c5cexX : RouteLayer := mkLayer 0 "N" [] []

def c5cexC : RouteLayer := mkLayer 1 "N" [segB, segC] []

def c5cexS : RouteLayer := mkLayer 2 "S" [segA] []

def c5cex : RoutesService :=
  { routes := [c5cexX, c5cexC, c5cexS], selectedId := some 2, nextId := 3,
    resourcesRoute := "Route", resourcesSplit := " Split", iconTypes := ["star"] }

theorem claim_C5_witness :
    (∀ l ∈ c5res.routes,
      (l.route.properties.name == c5closeLayer.route.properties.name) = false) ∧
    ∃ sel', findLayer c5res 0 = some sel' ∧
      sel'.route.markers.length =
        c5selLayer.route.markers.length + c5closeLayer.route.markers.length :=
  claim_C5_amended taxiDist c5wit false 0 c5selLayer c5closeLayer c5res
    (by unfold namesNodup; decide) (by decide) rfl (by decide) (by decide) (by decide)

/-- C5 counterexample: with duplicate names (reachable via `addRoute`) the
merge completes — `removeRoute` splices out the segmentless first namesake —
yet the absorbed route's name "N" is still carried by a route of the
resulting collection. -/
theorem claim_C5_counterexample :
    getClosestRoute taxiDist c5cex false = some (some c5cexC) ∧
    (mergeSelectedRouteToClosest taxiDist c5cex false).map
        (fun s2 => (routeNames s2).contains c5cexC.route.properties.name) = some true := by
  exact ⟨by decide, by decide⟩


/-! ## Claim C7: the at-most-one-Edit invariant -/

/-- Only the selected layer may be in Edit state. -/
def editInv (s : RoutesService) : Prop :=
  ∀ l ∈ s.routes, l.state = LayerState.Edit → s.selectedId = some l.id

/-- The reachable-state invariant: pairwise-distinct layer ids, ids below the
id counter, and Edit confined to the selection. -/
def goodState (s : RoutesService) : Prop :=
  ((s.routes.map (fun l => l.id)).Nodup) ∧
  (∀ l ∈ s.routes, l.id < s.nextId) ∧
  editInv s

theorem setEditMode_id (l : RouteLayer) (m : EditMode) : (setEditMode l m).id = l.id := by
  cases m <;> rfl

theorem good_updateLayer_pres (s : RoutesService) (i : Nat) (f : RouteLayer → RouteLayer)
    (hf : ∀ l, (f l).id = l.id) (hstate : ∀ l, (f l).state = l.state)
    (g : goodState s) : goodState (updateLayer s i f) := by
  obtain ⟨gn, gf, ge⟩ := g
  refine ⟨?_, ?_, ?_⟩
  · rw [routeIds_updateLayer s i f hf]
    exact gn
  · intro l hl
    have hl' : l ∈ s.routes.map (fun l0 => if l0.id == i then f l0 else l0) := hl
    obtain ⟨l0, hl0, hmap⟩ := List.mem_map.mp hl'
    rw [updateLayer_nextId]
    by_cases h0 : (l0.id == i) = true
    · rw [if_pos h0] at hmap
      rw [← hmap, hf l0]
      exact gf l0 hl0
    · rw [if_neg h0] at hmap
      rw [← hmap]
      exact gf l0 hl0
  · intro l hl he
    have hl' : l ∈ s.routes.map (fun l0 => if l0.id == i then f l0 else l0) := hl
    obtain ⟨l0, hl0, hmap⟩ := List.mem_map.mp hl'
    rw [updateLayer_selectedId]
    by_cases h0 : (l0.id == i) = true
    · rw [if_pos h0] at hmap
      have he0 : l0.state = LayerState.Edit := by
        rw [← hstate l0, hmap]
        exact he
      have hx := ge l0 hl0 he0
      rw [hx, ← hmap, hf l0]
    · rw [if_neg h0] at hmap
      rw [← hmap]
      exact ge l0 hl0 (by rw [hmap]; exact he)

theorem good_updateLayer_sel (s : RoutesService) (i : Nat) (f : RouteLayer → RouteLayer)
    (hf : ∀ l, (f l).id = l.id) (hsel : s.selectedId = some i)
    (g : goodState s) : goodState (updateLayer s i f) := by
  obtain ⟨gn, gf, ge⟩ := g
  refine ⟨?_, ?_, ?_⟩
  · rw [routeIds_updateLayer s i f hf]
    exact gn
  · intro l hl
    have hl' : l ∈ s.routes.map (fun l0 => if l0.id == i then f l0 else l0) := hl
    obtain ⟨l0, hl0, hmap⟩ := List.mem_map.mp hl'
    rw [updateLayer_nextId]
    by_cases h0 : (l0.id == i) = true
    · rw [if_pos h0] at hmap
      rw [← hmap, hf l0]
      exact gf l0 hl0
    · rw [if_neg h0] at hmap
      rw [← hmap]
      exact gf l0 hl0
  · intro l hl _
    have hl' : l ∈ s.routes.map (fun l0 => if l0.id == i then f l0 else l0) := hl
    obtain ⟨l0, hl0, hmap⟩ := List.mem_map.mp hl'
    rw [updateLayer_selectedId]
    by_cases h0 : (l0.id == i) = true
    · rw [if_pos h0] at hmap
      rw [hsel, ← hmap, hf l0]
      rw [beq_iff_eq] at h0
      rw [h0]
    · rw [if_neg h0] at hmap
      rw [← hmap]
      apply ge l0 hl0
      rename_i he
      rw [hmap]
      exact he

theorem selectRoute_routes_ids (s : RoutesService) (o : Option Nat) :
    (selectRoute s o).routes.map (fun l => l.id) = s.routes.map (fun l => l.id) := by
  unfold selectRoute
  cases h : s.selectedId with
  | none => rfl
  | some i => exact routeIds_updateLayer s i _ (fun l => rfl)

theorem selectRoute_nextId (s : RoutesService) (o : Option Nat) :
    (selectRoute s o).nextId = s.nextId := by
  unfold selectRoute
  cases h : s.selectedId <;> rfl

/-- From a state where only the selection may be Edit, `selectRoute` leaves no
Edit layer at all: it demotes the only candidate. -/
theorem selectRoute_no_edit (s : RoutesService) (o : Option Nat) (hinv : editInv s) :
    ∀ l ∈ (selectRoute s o).routes, ¬ l.state = LayerState.Edit := by
  intro l hl he
  unfold selectRoute at hl
  cases hsel : s.selectedId with
  | none =>
    simp only [hsel] at hl
    have hl' : l ∈ s.routes := hl
    have hx := hinv l hl' he
    rw [hsel] at hx
    exact Option.noConfusion hx
  | some i =>
    simp only [hsel] at hl
    have hl' : l ∈ s.routes.map (fun l0 => if l0.id == i then setReadOnlyStateL l0 else l0) := hl
    obtain ⟨l0, hl0, hmap⟩ := List.mem_map.mp hl'
    by_cases h0 : (l0.id == i) = true
    · rw [if_pos h0] at hmap
      rw [← hmap] at he
      simp [setReadOnlyStateL] at he
    · rw [if_neg h0] at hmap
      rw [← hmap] at he
      have hx := hinv l0 hl0 he
      rw [hsel] at hx
      injection hx with hx
      apply h0
      rw [beq_iff_eq]
      exact hx.symm

theorem good_selectRoute (s : RoutesService) (o : Option Nat) (g : goodState s) :
    goodState (selectRoute s o) := by
  obtain ⟨gn, gf, ge⟩ := g
  refine ⟨?_, ?_, ?_⟩
  · rw [selectRoute_routes_ids]
    exact gn
  · intro l hl
    rw [selectRoute_nextId]
    have h1 : l.id ∈ (selectRoute s o).routes.map (fun l => l.id) := List.mem_map_of_mem _ hl
    rw [selectRoute_routes_ids] at h1
    obtain ⟨l0, hl0, hid0⟩ := List.mem_map.mp h1
    rw [← hid0]
    exact gf l0 hl0
  · intro l hl he
    exact absurd he (selectRoute_no_edit s o ge l hl)

theorem updateLayer_id_fun (s : RoutesService) (i : Nat) :
    updateLayer s i (fun l => l) = s := by
  unfold updateLayer
  have h : s.routes.map (fun l => if l.id == i then l else l) = s.routes := by
    simp
  rw [h]

theorem removeFirstById_sublist (i : Nat) :
    ∀ L : List RouteLayer, List.Sublist (removeFirstById L i) L := by
  intro L
  induction L with
  | nil => simp [removeFirstById]
  | cons a rest ih =>
    rw [removeFirstById]
    by_cases h : (a.id == i) = true
    · rw [if_pos h]
      exact List.sublist_cons_self a rest
    · rw [if_neg h]
      exact List.Sublist.cons₂ a ih

/-- The append / attach / decorate / select pattern shared by `addRoute` and
the import loop preserves the invariant: the fresh id becomes the selection,
and the demotion inside `selectRoute` clears any previous Edit layer. -/
theorem pushSelect_good (s : RoutesService) (layer : RouteLayer)
    (f1 f2 : RouteLayer → RouteLayer)
    (hf1 : ∀ l, (f1 l).id = l.id) (hf2 : ∀ l, (f2 l).id = l.id)
    (hid : layer.id = s.nextId) (g : goodState s) :
    goodState (selectRoute (updateLayer (updateLayer
      { s with routes := s.routes ++ [layer], nextId := s.nextId + 1 }
      layer.id f1) layer.id f2) (some layer.id)) := by
  obtain ⟨gn, gf, ge⟩ := g
  set t0 : RoutesService :=
    { s with routes := s.routes ++ [layer], nextId := s.nextId + 1 } with ht0
  set t2 : RoutesService := updateLayer (updateLayer t0 layer.id f1) layer.id f2 with ht2
  have hids2 : t2.routes.map (fun l => l.id) = s.routes.map (fun l => l.id) ++ [layer.id] := by
    rw [ht2, routeIds_updateLayer _ _ _ hf2, routeIds_updateLayer _ _ _ hf1]
    show (s.routes ++ [layer]).map (fun l => l.id) = s.routes.map (fun l => l.id) ++ [layer.id]
    rw [List.map_append]
    rfl
  have htrace : ∀ l ∈ t2.routes, l.id = layer.id ∨
      (l ∈ s.routes ∧ (l.id == layer.id) = false) := by
    intro l hl
    have hl' : l ∈ (updateLayer t0 layer.id f1).routes.map
        (fun l0 => if l0.id == layer.id then f2 l0 else l0) := hl
    obtain ⟨l1, hl1, hm2⟩ := List.mem_map.mp hl'
    have hl1' : l1 ∈ t0.routes.map
        (fun l0 => if l0.id == layer.id then f1 l0 else l0) := hl1
    obtain ⟨l0, hl0, hm1⟩ := List.mem_map.mp hl1'
    have hl0' : l0 ∈ s.routes ++ [layer] := hl0
    rcases List.mem_append.mp hl0' with h | h
    · have hlt := gf l0 h
      have hne : (l0.id == layer.id) = false := by
        rw [beq_eq_false_iff_ne]
        omega
      rw [if_neg (by simp [hne])] at hm1
      subst hm1
      rw [if_neg (by simp [hne])] at hm2
      subst hm2
      exact Or.inr ⟨h, hne⟩
    · rw [List.mem_singleton] at h
      subst h
      left
      have h1 : l1.id = l0.id := by
        by_cases hb : (l0.id == l0.id) = true
        · rw [if_pos hb] at hm1
          rw [← hm1, hf1]
        · rw [if_neg hb] at hm1
          rw [← hm1]
      have h2 : l.id = l1.id := by
        by_cases hb : (l1.id == l0.id) = true
        · rw [if_pos hb] at hm2
          rw [← hm2, hf2]
        · rw [if_neg hb] at hm2
          rw [← hm2]
      rw [h2, h1]
  have hnodup2 : (t2.routes.map (fun l => l.id)).Nodup := by
    rw [hids2, List.nodup_append]
    refine ⟨gn, List.nodup_singleton _, ?_⟩
    intro x hx hx2
    rw [List.mem_singleton] at hx2
    subst hx2
    obtain ⟨l0, hl0, hid0⟩ := List.mem_map.mp hx
    have h1 := gf l0 hl0
    omega
  have hfresh2 : ∀ l ∈ t2.routes, l.id < t2.nextId := by
    intro l hl
    have h1 : l.id ∈ t2.routes.map (fun l => l.id) := List.mem_map_of_mem _ hl
    rw [hids2] at h1
    have hnext : t2.nextId = s.nextId + 1 := rfl
    rw [hnext]
    rcases List.mem_append.mp h1 with h | h
    · obtain ⟨l0, hl0, hid0⟩ := List.mem_map.mp h
      have h2 := gf l0 hl0
      omega
    · rw [List.mem_singleton] at h
      omega
  refine ⟨?_, ?_, ?_⟩
  · rw [selectRoute_routes_ids]
    exact hnodup2
  · intro l hl
    rw [selectRoute_nextId]
    have h1 : l.id ∈ (selectRoute t2 (some layer.id)).routes.map (fun l => l.id) :=
      List.mem_map_of_mem _ hl
    rw [selectRoute_routes_ids] at h1
    obtain ⟨l0, hl0, hid0⟩ := List.mem_map.mp h1
    rw [← hid0]
    exact hfresh2 l0 hl0
  · intro l hl he
    rw [selectRoute_selectedId]
    unfold selectRoute at hl
    have ht2sel : t2.selectedId = s.selectedId := rfl
    cases hsel : s.selectedId with
    | none =>
      have hsel2 : t2.selectedId = none := by rw [ht2sel, hsel]
      simp only [hsel2] at hl
      have hl' : l ∈ t2.routes := hl
      rcases htrace l hl' with h | ⟨hmem, hne⟩
      · rw [h]
      · have hx := ge l hmem he
        rw [hsel] at hx
        exact Option.noConfusion hx
    | some j =>
      have hsel2 : t2.selectedId = some j := by rw [ht2sel, hsel]
      simp only [hsel2] at hl
      have hl' : l ∈ t2.routes.map
          (fun l0 => if l0.id == j then setReadOnlyStateL l0 else l0) := hl
      obtain ⟨l3, hl3, hm3⟩ := List.mem_map.mp hl'
      by_cases hb : (l3.id == j) = true
      · rw [if_pos hb] at hm3
        rw [← hm3] at he
        simp [setReadOnlyStateL] at he
      · rw [if_neg hb] at hm3
        subst hm3
        rcases htrace l3 hl3 with h | ⟨hmem, hne⟩
        · rw [h]
        · have hx := ge l3 hmem he
          rw [hsel] at hx
          injection hx with hx
          exact absurd (beq_iff_eq.mpr hx.symm) (by simpa using hb)


theorem good_addRoute (s : RoutesService) (r : Route) (g : goodState s) :
    goodState (addRoute s r) :=
  pushSelect_good s
    { id := s.nextId, route := r, state := LayerState.ReadOnly, editMode := EditMode.None }
    mapAddLayerL setEditRouteStateL (fun l => rfl) (fun l => rfl) rfl g

theorem good_importRouteStep (s : RoutesService) (rd : RouteData) (g : goodState s) :
    goodState (importRouteStep s rd) := by
  have h := pushSelect_good s
    (createRouteLayerFromData s.nextId
      (if isNameAvailable s rd.name then rd
       else { rd with name := some (createRouteName s rd.name) }))
    mapAddLayerL (fun l => l) (fun l => rfl) (fun l => rfl) rfl g
  rw [updateLayer_id_fun] at h
  exact h

theorem good_foldl_import (rds : List RouteData) :
    ∀ s : RoutesService, goodState s → goodState (rds.foldl importRouteStep s) := by
  induction rds with
  | nil => intro s g; exact g
  | cons rd rest ih =>
    intro s g
    exact ih _ (good_importRouteStep s rd g)

/-- The hide / append-markers / restore cycle of the marker-only import
preserves the invariant when it targets the selection. -/
theorem good_markerOnly_core (t : RoutesService) (rd : RouteData) (sel : RouteLayer)
    (hsel : t.selectedId = some sel.id) (gt : goodState t) :
    goodState
      (updateLayer
        (updateLayer (updateLayer t sel.id setHiddenStateL) sel.id
          (fun l => { l with route := { l.route with markers := l.route.markers ++ rd.markers } }))
        sel.id (fun l => setEditMode l (getEditMode sel))) := by
  apply good_updateLayer_sel _ _ _ (fun l => setEditMode_id l _) (by simpa using hsel)
  apply good_updateLayer_sel _ _ _ ?hf2 (by simpa using hsel)
  case hf2 => intro l; rfl
  exact good_updateLayer_sel _ _ _ (fun l => rfl) hsel gt

theorem good_markerOnlyImport (s : RoutesService) (rd : RouteData) (g : goodState s) :
    goodState (markerOnlyImport s rd) := by
  rw [markerOnlyImport_def]
  cases hsel : s.selectedId with
  | none =>
    simp only [hsel]
    set s0 : RoutesService :=
      { s with selectedId := s.routes.head?.map (fun l => l.id) } with hs0
    have g0 : goodState s0 := by
      obtain ⟨gn, gf, ge⟩ := g
      refine ⟨gn, gf, ?_⟩
      intro l hl he
      have hx := ge l hl he
      rw [hsel] at hx
      exact Option.noConfusion hx
    cases hfind : s0.selectedId.bind (findLayer s0) with
    | none =>
      simp only [hfind]
      exact g0
    | some sel =>
      simp only [hfind]
      rcases Option.bind_eq_some.mp hfind with ⟨j, hj1, hj2⟩
      have hb : (sel.id == j) = true := by
        have := List.find?_some hj2
        exact this
      have hj : sel.id = j := by simpa using hb
      exact good_markerOnly_core s0 rd sel (by rw [hj1, hj]) g0
  | some i =>
    simp only [hsel, Option.some_bind]
    cases hfind : findLayer s i with
    | none =>
      simp only [hfind]
      exact g
    | some sel =>
      simp only [hfind]
      have hb : (sel.id == i) = true := by
        have := List.find?_some hfind
        exact this
      have hj : sel.id = i := by simpa using hb
      exact good_markerOnly_core s rd sel (by rw [hsel, hj]) g

theorem good_setData (s : RoutesService) (rds? : Option (List RouteData))
    (g : goodState s) : goodState (setData s rds?) := by
  cases rds? with
  | none => exact g
  | some rds =>
    rw [setData_some_def]
    by_cases hemp : rds.isEmpty = true
    · rw [if_pos hemp]
      exact g
    · rw [if_neg hemp]
      cases hmap : rds.map (normalizeRouteData s.iconTypes) with
      | nil => exact g
      | cons rd0 rest =>
        cases rest with
        | nil =>
          show goodState (if rd0.segments.isEmpty && !s.routes.isEmpty then
            markerOnlyImport s rd0 else [rd0].foldl importRouteStep s)
          by_cases hc : (rd0.segments.isEmpty && !s.routes.isEmpty) = true
          · rw [if_pos hc]
            exact good_markerOnlyImport s rd0 g
          · rw [if_neg hc]
            exact good_foldl_import [rd0] s g
        | cons rd1 rest2 =>
          exact good_foldl_import (rd0 :: rd1 :: rest2) s g

theorem good_removeRoute (s : RoutesService) (nm : String) (g : goodState s) :
    goodState (removeRoute s nm) := by
  unfold removeRoute
  cases hgn : getRouteByName s nm with
  | none => exact g
  | some layer =>
    simp only [hgn]
    set s1 : RoutesService :=
      if s.selectedId == some layer.id then selectRoute s none else s with hs1
    have g1 : goodState s1 := by
      rw [hs1]
      by_cases hb : (s.selectedId == some layer.id) = true
      · rw [if_pos hb]
        exact good_selectRoute s none g
      · rw [if_neg hb]
        exact g
    obtain ⟨gn, gf, ge⟩ := g1
    have hsub := removeFirstById_sublist layer.id s1.routes
    refine ⟨?_, ?_, ?_⟩
    · show ((removeFirstById s1.routes layer.id).map (fun l => l.id)).Nodup
      exact List.Nodup.sublist (List.Sublist.map _ hsub) gn
    · intro l hl
      have hmem : l ∈ s1.routes := hsub.subset hl
      exact gf l hmem
    · intro l hl he
      have hmem : l ∈ s1.routes := hsub.subset hl
      exact ge l hmem he

theorem good_changeRouteState (s : RoutesService) (i : Nat) (g : goodState s) :
    goodState (changeRouteState s i) := by
  unfold changeRouteState
  cases hfl : findLayer s i with
  | none => exact g
  | some layer =>
    simp only [hfl]
    by_cases hc : (s.selectedId == some i && layer.route.properties.isVisible) = true
    · rw [if_pos hc]
      exact good_updateLayer_pres _ _ _ (fun l => rfl) (fun l => rfl)
        (good_selectRoute s none g)
    · rw [if_neg hc]
      apply good_selectRoute
      by_cases hvis : layer.route.properties.isVisible = false
      · rw [if_pos hvis]
        exact good_updateLayer_pres _ _ _ (fun l => rfl) (fun l => rfl) g
      · rw [if_neg hvis]
        exact g


theorem prependToFirstSegLatlngs_state (p : LatLng) (l : RouteLayer) :
    (prependToFirstSegLatlngs p l).state = l.state := by
  unfold prependToFirstSegLatlngs
  cases hseg : l.route.segments <;> rfl

theorem good_splitSelectedRouteAt (s : RoutesService) (seg : SegmentData)
    (s2 : RoutesService) (g : goodState s)
    (h : splitSelectedRouteAt s seg = some s2) : goodState s2 := by
  unfold splitSelectedRouteAt at h
  simp only [Option.bind_eq_bind] at h
  rcases Option.bind_eq_some'.mp h with ⟨selId, hsid, h⟩
  rcases Option.bind_eq_some'.mp h with ⟨sel, hfl, h⟩
  rcases Option.bind_eq_some'.mp h with ⟨trimmed, htr, h⟩
  rcases Option.bind_eq_some'.mp h with ⟨startPoint, hsp, h⟩
  rcases Option.bind_eq_some'.mp h with ⟨rt, hrt, h⟩
  rcases Option.bind_eq_some'.mp h with ⟨selId2, hsid2, h⟩
  injection h with h
  subst h
  apply good_updateLayer_sel _ _ _ ?f0 hsid2
  case f0 => intro l; rfl
  apply good_setData
  apply good_updateLayer_sel _ _ _ ?f1 ?s1
  case f1 => intro l; rfl
  case s1 =>
    rw [updateLayer_selectedId]
    exact hsid
  exact good_updateLayer_sel _ _ _ (fun l => rfl) hsid g

theorem good_mergeTailFirst (selId : Nat) (t : RoutesService) (cc : RouteLayer)
    (s2 : RoutesService) (hsel : t.selectedId = some selId) (g : goodState t)
    (hm : mergeTailFirst selId t cc = some s2) : goodState s2 := by
  unfold mergeTailFirst at hm
  simp only [Option.bind_eq_bind] at hm
  rcases Option.bind_eq_some'.mp hm with ⟨sel, hfl, hm⟩
  rcases Option.bind_eq_some'.mp hm with ⟨sg0, hhd, hm⟩
  rcases Option.bind_eq_some'.mp hm with ⟨endPt, hep, hm⟩
  injection hm with hm
  subst hm
  apply good_updateLayer_sel _ _ _ ?f0 (by simp [hsel])
  case f0 => intro l; rfl
  apply good_updateLayer_sel _ _ _ ?f1 (by simp [hsel])
  case f1 => intro l; rfl
  apply good_updateLayer_sel _ _ _ ?f2 (by simp [hsel])
  case f2 => intro l; exact prependToFirstSegLatlngs_id _ _
  exact good_updateLayer_sel _ _ _ (fun l => rfl) hsel g

theorem good_mergeTailLast (selId : Nat) (t : RoutesService) (cc : RouteLayer)
    (s2 : RoutesService) (hsel : t.selectedId = some selId) (g : goodState t)
    (hm : mergeTailLast selId t cc = some s2) : goodState s2 := by
  unfold mergeTailLast at hm
  simp only [Option.bind_eq_bind] at hm
  rcases Option.bind_eq_some'.mp hm with ⟨sg0, hhd, hm⟩
  rcases Option.bind_eq_some'.mp hm with ⟨sel, hfl, hm⟩
  rcases Option.bind_eq_some'.mp hm with ⟨endPt, hep, hm⟩
  injection hm with hm
  subst hm
  apply good_updateLayer_sel _ _ _ ?f0 (by simp [hsel])
  case f0 => intro l; rfl
  apply good_updateLayer_sel _ _ _ ?f1 (by simp [hsel])
  case f1 => intro l; rfl
  apply good_updateLayer_pres _ _ _ ?f2 ?f3
  case f2 => intro l; exact prependToFirstSegLatlngs_id _ _
  case f3 => intro l; exact prependToFirstSegLatlngs_state _ _
  apply good_updateLayer_pres _ _ _ ?f4 ?f5
  case f4 => intro l; rfl
  case f5 => intro l; rfl
  exact g

theorem good_merge (dist : LatLng → LatLng → Int) (s : RoutesService) (isFirst : Bool)
    (s2 : RoutesService) (g : goodState s)
    (hm : mergeSelectedRouteToClosest dist s isFirst = some s2) : goodState s2 := by
  unfold mergeSelectedRouteToClosest at hm
  simp only [Option.bind_eq_bind] at hm
  rcases Option.bind_eq_some'.mp hm with ⟨c?, hgc, hm⟩
  rcases Option.bind_eq_some'.mp hm with ⟨c, hcq, hm⟩
  rcases Option.bind_eq_some'.mp hm with ⟨selId0, hsid0, hm⟩
  rcases Option.bind_eq_some'.mp hm with ⟨selId, hsid, hm⟩
  rcases Option.bind_eq_some'.mp hm with ⟨sel, hfl, hm⟩
  rcases Option.bind_eq_some'.mp hm with ⟨p, hp, hm⟩
  have g2 : goodState (updateLayer
      (removeRoute (updateLayer s selId0 setHiddenStateL) c.route.properties.name)
      selId (concatMarkers c.route.markers)) := by
    apply good_updateLayer_sel _ _ _ ?f0 hsid
    case f0 => intro l; rfl
    exact good_removeRoute _ _ (good_updateLayer_sel _ _ _ (fun l => rfl) hsid0 g)
  have grev : goodState (updateLayer (updateLayer
      (removeRoute (updateLayer s selId0 setHiddenStateL) c.route.properties.name)
      selId (concatMarkers c.route.markers)) c.id reverseLayer) :=
    good_updateLayer_pres _ _ _ (fun l => rfl) (fun l => rfl) g2
  rcases Bool.eq_false_or_eq_true isFirst with hif | hif
  · rw [hif] at hm
    rw [if_pos (Eq.refl true)] at hm
    rcases Option.bind_eq_some'.mp hm with ⟨q, hq, hm⟩
    by_cases hrev : dist q p < mergeThreshold
    · rw [if_pos hrev] at hm
      exact good_mergeTailFirst selId _ _ s2 (by simp [hsid]) grev hm
    · rw [if_neg hrev] at hm
      exact good_mergeTailFirst selId _ _ s2 (by simp [hsid]) g2 hm
  · rw [hif] at hm
    rw [if_neg (by simp)] at hm
    rcases Option.bind_eq_some'.mp hm with ⟨q, hq, hm⟩
    by_cases hrev : dist q p < mergeThreshold
    · rw [if_pos hrev] at hm
      exact good_mergeTailLast selId _ _ s2 (by simp [hsid]) grev hm
    · rw [if_neg hrev] at hm
      exact good_mergeTailLast selId _ _ s2 (by simp [hsid]) g2 hm

theorem good_applyOp (dist : LatLng → LatLng → Int) (s : RoutesService) (op : Op)
    (s2 : RoutesService) (g : goodState s) (h : applyOp dist s op = some s2) :
    goodState s2 := by
  cases op with
  | add route =>
    injection h with h
    subst h
    exact good_addRoute s route g
  | remove name =>
    injection h with h
    subst h
    exact good_removeRoute s name g
  | change i =>
    injection h with h
    subst h
    exact good_changeRouteState s i g
  | importData rds? =>
    injection h with h
    subst h
    exact good_setData s rds? g
  | split seg => exact good_splitSelectedRouteAt s seg s2 g h
  | merge isFirst => exact good_merge dist s isFirst s2 g h

theorem good_initService (resR resS : String) (icons : List String) :
    goodState (initService resR resS icons) := by
  refine ⟨by simp [initService], ?_, ?_⟩
  · intro l hl
    simp [initService] at hl
  · intro l hl
    simp [initService] at hl

theorem runOps_good (dist : LatLng → LatLng → Int) :
    ∀ (ops : List Op) (s s2 : RoutesService), goodState s →
      runOps dist s ops = some s2 → goodState s2 := by
  intro ops
  induction ops with
  | nil =>
    intro s s2 g h
    injection h with h
    subst h
    exact g
  | cons op rest ih =>
    intro s s2 g h
    rw [runOps] at h
    cases happ : applyOp dist s op with
    | none => rw [happ] at h; cases h
    | some s1 =>
      rw [happ] at h
      exact ih s1 s2 (good_applyOp dist s op s1 g happ) h


/-- C7: starting from the empty manager, after every sequence of public
operations (addRoute, removeRoute, changeRouteState, setData,
splitSelectedRouteAt, mergeSelectedRouteToClosest — a thrown operation aborts
the run) only the selected layer can be in Edit state, and at most one layer
of the collection is in Edit state. -/
theorem claim_C7 (dist : LatLng → LatLng → Int) (resR resS : String)
    (icons : List String) (ops : List Op) (s2 : RoutesService)
    (h : runOps dist (initService resR resS icons) ops = some s2) :
    (∀ l ∈ s2.routes, l.state = LayerState.Edit → s2.selectedId = some l.id) ∧
    (∀ l1 ∈ s2.routes, ∀ l2 ∈ s2.routes,
      l1.state = LayerState.Edit → l2.state = LayerState.Edit → l1 = l2) := by
  have hg : goodState s2 :=
    runOps_good dist ops (initService resR resS icons) s2
      (good_initService resR resS icons) h
  refine ⟨hg.2.2, ?_⟩
  intro l1 h1 l2 h2 e1 e2
  have q1 := hg.2.2 l1 h1 e1
  have q2 := hg.2.2 l2 h2 e2
  rw [q1] at q2
  injection q2 with q2
  exact List.inj_on_of_nodup_map hg.1 h1 h2 q2

/-- A two-insertion run exercising the C7 invariant. -/
def c7ops : List Op := [Op.add routeX, Op.add routeX]

def c7init : RoutesService := initService "Route" " Split" ["star"]

def c7res : RoutesService := (runOps taxiDist c7init c7ops).getD c7init

theorem claim_C7_witness :
    (∀ l ∈ c7res.routes, l.state = LayerState.Edit → c7res.selectedId = some l.id) ∧
    (∀ l1 ∈ c7res.routes, ∀ l2 ∈ c7res.routes,
      l1.state = LayerState.Edit → l2.state = LayerState.Edit → l1 = l2) :=
  claim_C7 taxiDist "Route" " Split" ["star"] c7ops c7res (by decide)


end RoutesSpec
